import Mathlib

/-!
# Verification of the dEAduction `MathObject` core

Shallow embedding of `src/deaduction/pylib/mathobj/math_object.py`:
the `MathObject` tree (node kind, info fields, children, optional
`math_type`), the `BoundVar` subclass, the process-wide registries
(`Variables`, `constants`, `number_sets`, `bound_var_counter`), the
structural-equality algorithm `MathObject.__eq__` / `BoundVar.__eq__`
with its bound-variable tagging protocol, `contains`, `descendant`,
`add_numbers_set`, `clear`, `from_info_and_children` and the implicit
definition unfolding.

Python object identity is modelled by an `oid : Nat` field on every
object (the address); `a is b` becomes `a.oid == b.oid`.  The mutable
`bound_var_nb` scratch slot stored in each object's `info` dict is
modelled as a map `tags : Nat → Int` from object ids to tag values
inside the explicit global state `St`, whose other fields are the
`MathObject` class attributes.  Python exceptions are modelled by
`Option`/`Except` results.  The `parent` back-reference and the
`is_unnamed` flag of `BoundVar` play no role in any verified property
and are omitted from the object record.
-/

set_option maxRecDepth 10000

namespace DEAduction

mutual

/-- The `MathObject` tree of `math_object.py`.  `name`, `value` and
`leanName` are the `info` dict entries `'name'`, `'value'`,
`'lean_name'`; `isBoundVar` is the class attribute `is_bound_var`
distinguishing the `BoundVar` subclass (`True`) from plain
`MathObject` (`False`); `mathTypeF` is the private `_math_type` field
(`OptMO.none` encodes Python `None`, read back as the `NO_MATH_TYPE`
sentinel by the `math_type` property).  `oid` is the Python object id,
used to model `is`-identity. -/
inductive MathObject where
  | mk (oid : Nat) (node : String) (name : Option String)
       (value : Option String) (leanName : Option String)
       (isBoundVar : Bool) (mathTypeF : OptMO) (children : MOList)

/-- `Optional[MathObject]`, as a mutual type so that structural
recursion over `MathObject` goes through. -/
inductive OptMO where
  | none
  | some (t : MathObject)

/-- `List[MathObject]`, as a mutual type. -/
inductive MOList where
  | nil
  | cons (head : MathObject) (tail : MOList)

end

deriving instance DecidableEq for MathObject

deriving instance DecidableEq for OptMO

deriving instance DecidableEq for MOList

namespace MathObject

def oid : MathObject → Nat
  | .mk o _ _ _ _ _ _ _ => o

def node : MathObject → String
  | .mk _ n _ _ _ _ _ _ => n

def name : MathObject → Option String
  | .mk _ _ nm _ _ _ _ _ => nm

def value : MathObject → Option String
  | .mk _ _ _ v _ _ _ _ => v

def leanName : MathObject → Option String
  | .mk _ _ _ _ ln _ _ _ => ln

def isBoundVar : MathObject → Bool
  | .mk _ _ _ _ _ b _ _ => b

def mathTypeF : MathObject → OptMO
  | .mk _ _ _ _ _ _ mt _ => mt

def children : MathObject → MOList
  | .mk _ _ _ _ _ _ _ cs => cs

end MathObject

namespace MOList

def length : MOList → Nat
  | .nil => 0
  | .cons _ t => 1 + t.length

/-- `l[i]`, for guarded accesses. -/
def get? : MOList → Nat → Option MathObject
  | .nil, _ => none
  | .cons h _, 0 => some h
  | .cons _ t, n + 1 => t.get? n

def toList : MOList → List MathObject
  | .nil => []
  | .cons h t => h :: t.toList

def ofList : List MathObject → MOList
  | [] => .nil
  | h :: t => .cons h (ofList t)

def append : MOList → MOList → MOList
  | .nil, l => l
  | .cons h t, l => .cons h (t.append l)

end MOList

/-- The module-level singleton `MathObject.NO_MATH_TYPE`
(`node="not provided"`).  Object id 0 is reserved for it, so
`is_no_math_type` (`self is NO_MATH_TYPE`) is `oid == 0`. -/
def NO_MATH_TYPE : MathObject :=
  .mk 0 "not provided" none none none false .none .nil

/-- The module-level singleton `MathObject.PROP`.  Object id 1 is
reserved for it. -/
def PROP : MathObject :=
  .mk 1 "PROP" none none none false .none .nil

/-- `MathObject.is_no_math_type`: identity with the sentinel. -/
def MathObject.isNoMathType (a : MathObject) : Bool :=
  a.oid == 0

/-- The `math_type` property: `_math_type` if set, else the
`NO_MATH_TYPE` sentinel. -/
def MathObject.mathType (a : MathObject) : MathObject :=
  match a.mathTypeF with
  | .none => NO_MATH_TYPE
  | .some t => t

/-- `MathObject.display_name`: `name` if set, else `'*no_name*'`. -/
def MathObject.displayName (a : MathObject) : String :=
  match a.name with
  | Option.some s => if s = "" then "*no_name*" else s
  | Option.none => "*no_name*"

/-- The node list of `MathObject.has_bound_var`. -/
def boundVarNodes : List String :=
  ["QUANT_∀", "QUANT_∃", "QUANT_∃!", "SET_INTENSION", "LAMBDA",
   "LOCAL_CONSTANT"]

/-- `MathObject.has_bound_var`: node in the binder list, exactly three
children, and `children[1]` is a `BoundVar`. -/
def MathObject.hasBoundVar (a : MathObject) : Bool :=
  decide (a.node ∈ boundVarNodes) &&
    a.children.length == 3 &&
    (match a.children.get? 1 with
     | Option.some c => c.isBoundVar
     | Option.none => false)

/-- The global mutable state: the `MathObject` class attributes
(`Variables`, `constants`, `number_sets`, `bound_var_counter`), the
per-object `bound_var_nb` scratch slots (`tags`, defaulting to `-1`),
and the allocator `nextOid` modelling Python object creation. -/
structure St where
  Variables : List (String × MathObject)
  constants : List (Option String × MathObject)
  numberSets : List String
  boundVarCounter : Nat
  tags : Nat → Int
  nextOid : Nat

/-- `info.get('bound_var_nb')` of the object with id `o` (every
`BoundVar` is initialised with the default `-1`). -/
def St.tag (s : St) (o : Nat) : Int := s.tags o

/-- Write `bound_var_nb` of the object with id `o`. -/
def St.setTag (s : St) (o : Nat) (v : Int) : St :=
  { s with tags := fun o' => if o' = o then v else s.tags o' }

/-- `BoundVar.bound_var_nb()`: read the scratch slot. -/
def MathObject.boundVarNb (a : MathObject) (s : St) : Int :=
  s.tag a.oid

/-- `BoundVar.mark_identical_bound_vars`: bump the class counter and
write it into both objects' `bound_var_nb` slots. -/
def markIdenticalBoundVars (v w : MathObject) (s : St) : St :=
  let c := s.boundVarCounter + 1
  let s' : St := { s with boundVarCounter := c }
  (s'.setTag v.oid (Int.ofNat c)).setTag w.oid (Int.ofNat c)

/-- `BoundVar.__eq__`: identity, else (for another `BoundVar`) tag
comparison when `self`'s tag is set, else name comparison; `False`
against any non-`BoundVar`.  Reads the scratch slots from `s` but
never writes. -/
def boundVarEq (v w : MathObject) (s : St) : Bool :=
  if v.oid == w.oid then true
  else if w.isBoundVar then
    if v.boundVarNb s != -1 then v.boundVarNb s == w.boundVarNb s
    else v.name == w.name
  else false

/-- The pair of objects marked by `MathObject.__eq__` before the
children loop: `(self.children[1], other.children[1])` when
`self.has_bound_var()`, else nothing. -/
def markedPair (a b : MathObject) : Option (MathObject × MathObject) :=
  if a.hasBoundVar then
    match a.children.get? 1, b.children.get? 1 with
    | Option.some u, Option.some w => Option.some (u, w)
    | _, _ => Option.none
  else Option.none

/-- Apply `mark_identical_bound_vars` to a `markedPair` result. -/
def markState (marked : Option (MathObject × MathObject)) (s : St) : St :=
  match marked with
  | Option.some (u, w) => markIdenticalBoundVars u w s
  | Option.none => s

/-- The un-marking epilogue of `MathObject.__eq__`: after the children
loop, `unmark_bound_var` is called on both marked objects.  Un-marking
`other.children[1]` raises `AttributeError` (`Option.none`) when that
object is not a `BoundVar` — the single exception source of the
algorithm. -/
def mEqFinish (marked : Option (MathObject × MathObject)) :
    Option (Bool × St) → Option (Bool × St)
  | Option.none => Option.none
  | Option.some (equal, s3) =>
    match marked with
    | Option.none => Option.some (equal, s3)
    | Option.some (u, w) =>
      if w.isBoundVar then
        Option.some (equal, (s3.setTag u.oid (-1)).setTag w.oid (-1))
      else Option.none

/-- `self.math_type != other.math_type` when `other.math_type` is the
`NO_MATH_TYPE` sentinel: dispatching on `self.math_type`,
`MathObject.__eq__` short-circuits to `True` by its sentinel rule, but
a `BoundVar` math type uses `BoundVar.__eq__`, which has no such
rule. -/
def mtCmpSentinel (x : MathObject) (s : St) : Bool :=
  if x.isBoundVar then boundVarEq x NO_MATH_TYPE s else true

mutual

/-- `MathObject.__eq__` (state-passing, `Option.none` = a Python
exception escapes the call).  Steps: identity; sentinel rule;
`(node, is_bound_var, name, value)` tuple; `math_type` (dispatching on
the runtime class of `self.math_type`; a `None` `_math_type` field
reads back as the `NO_MATH_TYPE` sentinel, for which the comparison
short-circuits to `True` with no state change); child count;
bound-variable marking, pairwise children loop, un-marking
(`mEqFinish`). -/
def mEq : MathObject → MathObject → St → Option (Bool × St)
  | .mk o1 n1 nm1 v1 ln1 bv1 mt1 cs1, b, s =>
    if o1 == b.oid then Option.some (true, s)
    else if o1 == 0 || b.oid == 0 then Option.some (true, s)
    else if !(n1 == b.node && bv1 == b.isBoundVar && nm1 == b.name &&
              v1 == b.value) then
      Option.some (false, s)
    else
      Option.bind
        (match mt1, b.mathTypeF with
         | .none, _ => Option.some (true, s)
         | .some x, .none => Option.some (mtCmpSentinel x s, s)
         | .some x, .some y =>
           if x.isBoundVar then Option.some (boundVarEq x y s, s)
           else mEq x y s)
        (fun p =>
          if !p.1 then Option.some (false, p.2)
          else if cs1.length != b.children.length then
            Option.some (false, p.2)
          else
            let marked :=
              markedPair (.mk o1 n1 nm1 v1 ln1 bv1 mt1 cs1) b
            mEqFinish marked
              (mEqChildren cs1 b.children true (markState marked p.2)))

/-- The `for child0, child1 in zip(...)` loop of `MathObject.__eq__`:
compare pairwise, dispatching on the runtime class of the left child
(`BoundVar.__eq__` overrides `MathObject.__eq__`), accumulating
`equal`; the loop never breaks early, but an exception aborts it. -/
def mEqChildren : MOList → MOList → Bool → St → Option (Bool × St)
  | .cons c0 t0, .cons c1 t1, equal, s =>
    Option.bind
      (if c0.isBoundVar then Option.some (boundVarEq c0 c1 s, s)
       else mEq c0 c1 s)
      (fun q => mEqChildren t0 t1 (equal && q.1) q.2)
  | .nil, _, equal, s => Option.some (equal, s)
  | .cons _ _, .nil, equal, s => Option.some (equal, s)

end

/-- A Python `==`/`!=` between two `MathObject`s: dispatch on the
runtime class of the left operand (`BoundVar.__eq__` overrides
`MathObject.__eq__`).  `BoundVar.__eq__` neither writes tags nor
raises. -/
def dispatchEq (x y : MathObject) (s : St) : Option (Bool × St) :=
  if x.isBoundVar then Option.some (boundVarEq x y s, s)
  else mEq x y s

mutual

/-- `MathObject.contains`: `0` on the `NO_MATH_TYPE` sentinel
(identity test); `1` when `MathObject.__eq__(self, other)` holds
(note: the unbound `MathObject.__eq__` is called even when `self` is a
`BoundVar`, and the children are NOT examined further in this case);
otherwise the sum over children — preceded, in the source, by a stray
debug loop that evaluates `child.contains(other)` once more for every
child, whose only observable effects are on the state (counter) and
exception behaviour. -/
def contains : MathObject → MathObject → St → Option (Nat × St)
  | .mk o1 n1 nm1 v1 ln1 bv1 mt1 cs1, other, s =>
    if o1 == 0 then Option.some (0, s)
    else
      Option.bind (mEq (.mk o1 n1 nm1 v1 ln1 bv1 mt1 cs1) other s)
        (fun p =>
          if p.1 then Option.some (1, p.2)
          else
            Option.bind (containsDebugLoop cs1 other p.2)
              (fun s2 => containsSum cs1 other s2))

/-- The debug loop of `MathObject.contains`: run `child.contains`
for each child, discarding the counts. -/
def containsDebugLoop : MOList → MathObject → St → Option St
  | .nil, _, s => Option.some s
  | .cons h t, other, s =>
    Option.bind (contains h other s)
      (fun p => containsDebugLoop t other p.2)

/-- The `sum([child.contains(other) for child in self.children])` of
`MathObject.contains`. -/
def containsSum : MOList → MathObject → St → Option (Nat × St)
  | .nil, _, s => Option.some (0, s)
  | .cons h t, other, s =>
    Option.bind (contains h other s)
      (fun p =>
        Option.map (fun q => (p.1 + q.1, q.2)) (containsSum t other p.2))

end

/-!
## The constructor `MathObject.__init__` and registry operations
-/

/-- Overwrite the `_math_type` field (Python
`bound_var.math_type = math_type`), keeping the object identity. -/
def setMathTypeF (a : MathObject) (mt : OptMO) : MathObject :=
  match a with
  | .mk o n nm v ln b _ ch => .mk o n nm v ln b mt ch

/-- The bound-variable wiring of `MathObject.__init__`: when
`self.has_bound_var()`, set `children[1].math_type = children[0]`.
(Python also mutates the shared `children[1]` object in place and sets
its `parent` back-reference; the model records the effect on the
constructed tree, and `parent` is not modelled.) -/
def wireBoundVar (node : String) (cs : MOList) : MOList :=
  match cs with
  | .cons c0 (.cons c1 (.cons c2 .nil)) =>
    if decide (node ∈ boundVarNodes) && c1.isBoundVar then
      .cons c0 (.cons (setMathTypeF c1 (.some c0)) (.cons c2 .nil))
    else cs
  | _ => cs

/-- `MathObject.__init__` for a given class (`isBoundVar` is `True`
exactly for `BoundVar.__init__`'s call of it): store the fields, wire
the bound variable when `has_bound_var()`, then uncurry
`APP(APP(1, 2, ...), n)` into `APP(1, 2, ..., n)`.  The fresh object
id is drawn from the allocator.  `Option.none` models the
`IndexError` raised by the uncurrying step when `node` is
`'APPLICATION'` but there is no `children[0]` or `children[1]`. -/
def mkMO (isBoundVar : Bool) (node : String)
    (name value leanName : Option String) (mathTypeF : OptMO)
    (children : MOList) (s : St) : Option (MathObject × St) :=
  if node == "APPLICATION" then
    match wireBoundVar node children with
    | .nil => Option.none
    | .cons c0 rest =>
      if c0.node == "APPLICATION" then
        match rest with
        | .nil => Option.none
        | .cons c1 _ =>
          Option.some (.mk s.nextOid node name value leanName isBoundVar
            mathTypeF (c0.children.append (.cons c1 .nil)),
            { s with nextOid := s.nextOid + 1 })
      else
        Option.some (.mk s.nextOid node name value leanName isBoundVar
          mathTypeF (.cons c0 rest), { s with nextOid := s.nextOid + 1 })
  else
    Option.some (.mk s.nextOid node name value leanName isBoundVar
      mathTypeF (wireBoundVar node children),
      { s with nextOid := s.nextOid + 1 })

/-- `MathObject.NUMBER_SETS_LIST`. -/
def NUMBER_SETS_LIST : List String := ["ℕ", "ℤ", "ℚ", "ℝ"]

/-- `NUMBER_SETS_LIST.index(name)`.  (Python `list.index` raises for a
name outside the list; `add_numbers_set` only calls it on `name` and
on elements of `number_sets`, all of which lie in the chain, so
`List.idxOf`, which agrees on members, is a faithful model on every
reachable state.) -/
def chainIndex (name : String) : Nat := NUMBER_SETS_LIST.indexOf name

/-- The `while counter > 0` loop of `MathObject.add_numbers_set`,
called with Python's `counter` value: swap `name` (sitting at index
`counter`) with its left neighbour while its chain position is
smaller. -/
def bubbleDown (name : String) (ns : List String) : Nat → List String
  | 0 => ns
  | counter + 1 =>
    let old := ns.getD counter ""
    if chainIndex name < chainIndex old then
      bubbleDown name ((ns.set (counter + 1) old).set counter name)
        counter
    else ns

/-- `MathObject.add_numbers_set`: if `name` is one of the four
number-set names and not yet present, append it and bubble it down to
its chain position. -/
def addNumbersSet (ns : List String) (name : String) : List String :=
  if name ∈ NUMBER_SETS_LIST ∧ name ∉ ns then
    let ns' := ns ++ [name]
    bubbleDown name ns' (ns'.length - 1)
  else ns

/-- `MathObject.clear`: reset `Variables`, `number_sets` and
`bound_var_counter`; the `constants` table (and the objects' scratch
slots) are left untouched. -/
def clear (s : St) : St :=
  { s with Variables := [], numberSets := [], boundVarCounter := 0 }

/-!
## `BoundVar` construction and `from_info_and_children`
-/

/-- `str.endswith(suffix)`, computed on the character lists so that
concrete instances reduce in the kernel. -/
def strEndsWith (s suffix : String) : Bool :=
  suffix.data.isSuffixOf s.data

/-- The Python slice `str[:-n]` (drop the last `n` characters). -/
def strDropRight (s : String) (n : Nat) : String :=
  (s.data.take (s.data.length - n)).asString

/-- `str.startswith(p)`, computed on the character lists. -/
def strStartsWith (s p : String) : Bool :=
  p.data.isPrefixOf s.data

/-- Replace the `name` info entry, keeping the object identity. -/
def MathObject.withName (a : MathObject) (nm : Option String) :
    MathObject :=
  match a with
  | .mk o n _ v ln b mt cs => .mk o n nm v ln b mt cs

/-- Replace the `lean_name` info entry, keeping the object identity. -/
def MathObject.withLeanName (a : MathObject) (ln : Option String) :
    MathObject :=
  match a with
  | .mk o n nm v _ b mt cs => .mk o n nm v ln b mt cs

/-- Replace the children list, keeping the object identity (Python
rebinds `self.children` in place). -/
def MathObject.withChildren (a : MathObject) (cs : MOList) :
    MathObject :=
  match a with
  | .mk o n nm v ln b mt _ => .mk o n nm v ln b mt cs

/-- `BoundVar.untouched_bound_var_names`. -/
def untouchedBoundVarNames : List String :=
  ["RealSubGroup", "_inst_1", "_inst_2", "inst_3"]

/-- `self.info.get('name', '')`. -/
def pyGetName (m : MathObject) : String :=
  match m.name with
  | Option.some nm => nm
  | Option.none => ""

/-- The `lean_name` computed by `BoundVar.set_unnamed_bound_var`: the
current name, normalised to `''` when it is one of the unnamed
sentinels. -/
def bvLeanName (oldName : String) : String :=
  if oldName == "NO NAME" || oldName == "*no_name*" then "" else oldName

/-- `BoundVar.keep_lean_name()`. -/
def bvKeep (ln : String) : Bool :=
  decide (ln ∈ untouchedBoundVarNames) || strStartsWith ln "_inst_"

/-- The renaming tail of `BoundVar.__init__`:
`set_unnamed_bound_var()` (move the current name into `lean_name`,
rename to `"NO NAME"`), then `name_bound_var(lean_name)` when
`keep_lean_name()` holds. -/
def bvFinish (m : MathObject) : MathObject :=
  if bvKeep (bvLeanName (pyGetName m)) then
    ((m.withName (Option.some "NO NAME")).withLeanName
        (Option.some (bvLeanName (pyGetName m)))).withName
      (Option.some (bvLeanName (pyGetName m)))
  else
    (m.withName (Option.some "NO NAME")).withLeanName
      (Option.some (bvLeanName (pyGetName m)))

/-- `BoundVar.__init__`: run `MathObject.__init__` (as `mkMO` with
`is_bound_var = True`), reset the object's `bound_var_nb` slot to the
default `-1`, and apply the renaming tail (`bvFinish`).  The `parent`
argument and the `is_unnamed` flag are not modelled. -/
def mkBoundVar (node : String) (name value leanName : Option String)
    (mathTypeF : OptMO) (children : MOList) (s : St) :
    Option (MathObject × St) :=
  Option.bind (mkMO true node name value leanName mathTypeF children s)
    (fun p => Option.some (bvFinish p.1, p.2.setTag p.1.oid (-1)))

/-- `BoundVar.from_math_type`: a fresh unnamed bound variable of the
given math type (`info = {'name': "NO NAME", 'lean_name': ''}`). -/
def boundVarFromMathType (mt : MathObject) (s : St) :
    Option (MathObject × St) :=
  mkBoundVar "LOCAL_CONSTANT" (Option.some "NO NAME") Option.none
    (Option.some "") (.some mt) .nil s

/-- `MathObject.is_prop(is_math_type=False)` composed as used by
`is_variable`: `math_type.node == "PROP"` of the argument. -/
def isPropOfMathType (a : MathObject) : Bool :=
  a.mathType.node == "PROP"

/-- `MathObject.is_variable(is_math_type=True)`: a `LOCAL_CONSTANT`
whose math type is neither a proposition type, nor a universe, nor the
`NO_MATH_TYPE` sentinel. -/
def isVariableMT (a : MathObject) : Bool :=
  a.node == "LOCAL_CONSTANT" &&
    !(isPropOfMathType a.mathType || a.mathType.node == "TYPE" ||
      a.mathType.isNoMathType)

/-- `MathObject.is_sequence(is_math_type=False)`. -/
def isSequence (a : MathObject) : Bool :=
  a.mathType.node == "SEQUENCE"

/-- `MathObject.is_set_family(is_math_type=False)`. -/
def isSetFamily (a : MathObject) : Bool :=
  a.mathType.node == "SET_FAMILY"

/-- `MathObject.application`: `APPLICATION` of `function` to `var`,
with `math_type = function.math_type.children[1]` (an `IndexError`,
modelled `Option.none`, if that child does not exist). -/
def application (f v : MathObject) (s : St) : Option (MathObject × St) :=
  match f.mathType.children.get? 1 with
  | Option.none => Option.none
  | Option.some mt =>
    mkMO false "APPLICATION" Option.none Option.none Option.none
      (.some mt) (.cons f (.cons v .nil)) s

/-- `MathObject.lambda_`: `LAMBDA` with children
`[var.math_type, var, body]` and the given math type. -/
def lambda_ (var body mt : MathObject) (s : St) :
    Option (MathObject × St) :=
  mkMO false "LAMBDA" Option.none Option.none Option.none (.some mt)
    (.cons var.mathType (.cons var (.cons body .nil))) s

/-- The `for index in range(len(self.children))` loop of
`MathObject.process_sequences_and_likes`, step (2): replace every
child that is a non-bound-variable sequence/set-family variable by a
lambda expansion `λ var, child(var)`. -/
def processSeqChildren : MOList → St → Option (MOList × St)
  | .nil, s => Option.some (.nil, s)
  | .cons c t, s =>
    let rep : Option (MathObject × St) :=
      if isVariableMT c && (isSequence c || isSetFamily c) &&
          !c.isBoundVar then
        match c.mathType.children.get? 0 with
        | Option.none => Option.none
        | Option.some vt =>
          match boundVarFromMathType vt s with
          | Option.none => Option.none
          | Option.some (var, s1) =>
            match application c var s1 with
            | Option.none => Option.none
            | Option.some (body, s2) =>
              match lambda_ var body c.mathType s2 with
              | Option.none => Option.none
              | Option.some (lam, s3) => Option.some (lam, s3)
      else Option.some (c, s)
    match rep with
    | Option.none => Option.none
    | Option.some (c', s') =>
      match processSeqChildren t s' with
      | Option.none => Option.none
      | Option.some (cs, s'') => Option.some (.cons c' cs, s'')

/-- Step (1) of `MathObject.process_sequences_and_likes`: a childless
sequence/set-family variable (or bound variable) gets the three
display children `[bound_var_type, bound_var, PROP]`. -/
def processSeqStep1 (m : MathObject) (s : St) : Option (MathObject × St) :=
  if (isVariableMT m || m.isBoundVar) && (isSequence m || isSetFamily m)
      then
    if m.children.length == 0 then
      match m.mathType.children.get? 0 with
      | Option.none => Option.none
      | Option.some bvt =>
        Option.bind (boundVarFromMathType bvt s)
          (fun p =>
            Option.some
              (m.withChildren (.cons bvt (.cons p.1 (.cons PROP .nil))),
               p.2))
    else Option.some (m, s)
  else Option.some (m, s)

/-- `MathObject.process_sequences_and_likes`: step (1), then — unless
the node is an `APPLICATION` or `LAMBDA` — step (2), which replaces
each sequence/set-family variable child (that is not a bound variable)
by a lambda expansion.  The object identity of `self` is preserved
(Python mutates `self.children` in place). -/
def processSeq (m : MathObject) (s : St) : Option (MathObject × St) :=
  Option.bind (processSeqStep1 m s)
    (fun p =>
      if p.1.node != "APPLICATION" && p.1.node != "LAMBDA" then
        Option.bind (processSeqChildren p.1.children p.2)
          (fun q => Option.some (p.1.withChildren q.1, q.2))
      else Option.some p)

/-- Python truthiness of an optional string (`None` and `''` are
falsy). -/
def isTruthy : Option String → Bool
  | Option.some str => str != ""
  | Option.none => false

/-- The parser `info` dictionary handed to
`MathObject.from_info_and_children`: the `node_name` key plus the
optional keys used by the modelled code paths. -/
structure Info where
  node_name : String
  name : Option String
  value : Option String
  leanName : Option String
  identifier : Option String
  mathTypeF : OptMO

/-- Where `from_info_and_children` cached the object it returns, so
that the in-place mutation of step (5) (`process_sequences_and_likes`)
can be mirrored into the registry table that aliases the object. -/
inductive CachedAt where
  | constantsKey (k : Option String)
  | variablesKey (k : String)
  | nowhere

/-- Association-list lookup for the `Variables` table. -/
def lookupVar (l : List (String × MathObject)) (k : String) :
    Option MathObject :=
  match l.find? (fun p => p.1 == k) with
  | Option.some p => Option.some p.2
  | Option.none => Option.none

/-- Association-list lookup for the `constants` table. -/
def lookupConst (l : List (Option String × MathObject))
    (k : Option String) : Option MathObject :=
  match l.find? (fun p => p.1 == k) with
  | Option.some p => Option.some p.2
  | Option.none => Option.none

/-- `d[k] = v` on the `Variables` table. -/
def storeVar (l : List (String × MathObject)) (k : String)
    (v : MathObject) : List (String × MathObject) :=
  (k, v) :: l.filter (fun p => p.1 != k)

/-- `d[k] = v` on the `constants` table. -/
def storeConst (l : List (Option String × MathObject))
    (k : Option String) (v : MathObject) :
    List (Option String × MathObject) :=
  (k, v) :: l.filter (fun p => p.1 != k)

/-- The `'.BoundVar'`-suffix test of `from_info_and_children`: for a
truthy name ending in the marker, the name with the suffix stripped;
otherwise nothing. -/
def strippedBoundVarName : Option String → Option String
  | Option.some nm =>
    if nm != "" && strEndsWith nm ".BoundVar" then
      Option.some (strDropRight nm ".BoundVar".length)
    else Option.none
  | Option.none => Option.none

/-- Steps (1)–(3) of `MathObject.from_info_and_children`: build or
look up the object, and record which registry slot aliases it. -/
def fromInfoBuild (info : Info) (children : MOList) (s : St) :
    Option (MathObject × St × CachedAt) :=
  if info.node_name == "CONSTANT" then
    match (if isTruthy info.name then lookupConst s.constants info.name
           else Option.none) with
    | Option.some m => Option.some (m, s, .constantsKey info.name)
    | Option.none =>
      Option.bind (mkMO false info.node_name info.name info.value
          info.leanName info.mathTypeF children s)
        (fun p =>
          Option.some (p.1,
            { p.2 with constants :=
                (storeConst p.2.constants info.name p.1) },
            .constantsKey info.name))
  else
    match info.identifier with
    | Option.some id =>
      (match lookupVar s.Variables id with
       | Option.some m => Option.some (m, s, .variablesKey id)
       | Option.none =>
         Option.bind
           (match strippedBoundVarName info.name with
            | Option.some stripped =>
              mkBoundVar info.node_name (Option.some stripped)
                info.value info.leanName info.mathTypeF children s
            | Option.none =>
              mkMO false info.node_name info.name info.value
                info.leanName info.mathTypeF children s)
           (fun p =>
             Option.some (p.1,
               { p.2 with Variables := storeVar p.2.Variables id p.1 },
               .variablesKey id)))
    | Option.none =>
      Option.bind (mkMO false info.node_name info.name info.value
          info.leanName info.mathTypeF children s)
        (fun p => Option.some (p.1, p.2, .nowhere))

/-- Mirror the in-place mutation of the returned (aliased) object into
the registry slot it was cached in. -/
def storeBack (c : CachedAt) (m : MathObject) (s : St) : St :=
  match c with
  | .constantsKey k => { s with constants := storeConst s.constants k m }
  | .variablesKey k => { s with Variables := storeVar s.Variables k m }
  | .nowhere => s

/-- Steps (4)–(5) of `MathObject.from_info_and_children`: offer the
display name to `add_numbers_set`, then run
`process_sequences_and_likes` on the (aliased) object. -/
def fromInfoFinish (m : MathObject) (s1 : St) (c : CachedAt) :
    Option (MathObject × St) :=
  Option.bind
    (processSeq m
      { s1 with numberSets := addNumbersSet s1.numberSets m.displayName })
    (fun p => Option.some (p.1, storeBack c p.1 p.2))

/-- `MathObject.from_info_and_children`:
(1) `CONSTANT` nodes are deduplicated through the `constants` table by
display name (a falsy name skips the lookup and caches under the falsy
key);
(2) otherwise an info map with an `identifier` is deduplicated through
`Variables`; on a miss, a name ending in `'.BoundVar'` is stripped and
a `BoundVar` is built, else a plain `MathObject`;
(3) otherwise a plain `MathObject` is built;
then (4) the display name is offered to `add_numbers_set` and (5)
`process_sequences_and_likes` runs on the result (the model mirrors
that in-place mutation into the aliasing registry slot). -/
def fromInfoAndChildren (info : Info) (children : MOList) (s : St) :
    Option (MathObject × St) :=
  Option.bind (fromInfoBuild info children s)
    (fun b => fromInfoFinish b.1 b.2.1 b.2.2)

/-!
## Implicit definition unfolding
-/

/-- Modelled from the spec: a compiled implicit-definition pattern
pair.  The `PatternMathObject` class (pattern matching with
meta-variables, `match`/`apply_matching`) lives outside the provided
source files; per the spec, `match(left, term)` is a boolean test and
`apply(right, bindings)` purely produces the rewritten term, so a
pattern is modelled as its match predicate together with the rewrite
it produces on a successful match. -/
structure DefinitionPattern where
  matchLeft : MathObject → Bool
  rw : MathObject → MathObject

/-- `MathObject.unfold_implicit_definition`: try every pattern at top
level, in definition order, and return the rewrites of all successful
matches ( empty list when nothing matches). -/
def unfoldImplicitDefinition (pats : List DefinitionPattern)
    (t : MathObject) : List MathObject :=
  pats.filterMap
    (fun p => if p.matchLeft t then Option.some (p.rw t) else Option.none)

/-- The `for child in math_object.children` loop of
`unfold_implicit_definition_recursively`, abstracted over the
recursive call `f`. -/
def unfoldChildrenWith
    (f : MathObject → St → Option (MathObject × St)) :
    MOList → St → Option (MOList × St)
  | .nil, s => Option.some (.nil, s)
  | .cons c t, s =>
    Option.bind (f c s)
      (fun p =>
        Option.map (fun q => (MOList.cons p.1 q.1, q.2))
          (unfoldChildrenWith f t p.2))

/-- `MathObject.unfold_implicit_definition_recursively`: unfold at top
level keeping only the first successful rewrite, recurse into the
children of the (possibly rewritten) node, and rebuild a fresh plain
`MathObject` (the constructor call uses the `MathObject` class, so the
rebuilt node and all rebuilt children have `is_bound_var = False`)
with the same node, info and math type.  The Python recursion has no
termination guard; the model adds explicit fuel (`Option.none` when it
runs out), by primitive recursion so that concrete runs compute. -/
def unfoldImplicitDefinitionRecursively (pats : List DefinitionPattern)
    (fuel : Nat) : MathObject → St → Option (MathObject × St) :=
  Nat.rec (motive := fun _ => MathObject → St → Option (MathObject × St))
    (fun _ _ => Option.none)
    (fun _ ih t s =>
      let u : MathObject := (unfoldImplicitDefinition pats t).headD t
      Option.bind (unfoldChildrenWith ih u.children s)
        (fun p =>
          mkMO false u.node u.name u.value u.leanName (.some u.mathType)
            p.1 p.2))
    fuel

mutual

/-- No implicit definition matches anywhere in the tree: the nodes
visited by `unfold_implicit_definition_recursively` when nothing
rewrites are exactly the tree's own nodes. -/
def noMatchIn (pats : List DefinitionPattern) : MathObject → Bool
  | .mk o n nm v ln b mt cs =>
    (unfoldImplicitDefinition pats (.mk o n nm v ln b mt cs)).isEmpty &&
      noMatchInList pats cs

/-- `noMatchIn` over a child list. -/
def noMatchInList (pats : List DefinitionPattern) : MOList → Bool
  | .nil => true
  | .cons h t => noMatchIn pats h && noMatchInList pats t

end

/-!
## `MathObject.descendant`
-/

/-- Python list indexing `cs[i]` for a signed index: `Option.none` is
an `IndexError`. -/
def pyIndex (cs : MOList) (i : Int) : Option MathObject :=
  if 0 ≤ i ∧ i < (cs.length : Int) then cs.get? i.toNat
  else if -(cs.length : Int) ≤ i ∧ i < 0 then
    cs.get? (cs.length - (-i).toNat)
  else Option.none

/-- `MathObject.descendant` on a plain `int` argument: unguarded
`self.children[line_of_descent]`; out of range raises `IndexError`
(`Option.none`). -/
def descendantInt (a : MathObject) (i : Int) : Option MathObject :=
  pyIndex a.children i

/-- `MathObject.descendant` on a `tuple`/`list` argument:
`child_number, *remaining = line_of_descent` (raising `ValueError`,
modelled `Except.error`, on an empty path); a leading index `≥
len(children)` returns `None` (`Except.ok Option.none`); otherwise
unguarded indexing (negative out-of-range raises), then recurse on the
remaining path. -/
def descendantList (a : MathObject) : List Int →
    Except Unit (Option MathObject)
  | [] => Except.error ()
  | childNumber :: remaining =>
    if (a.children.length : Int) ≤ childNumber then Except.ok Option.none
    else
      match pyIndex a.children childNumber with
      | Option.none => Except.error ()
      | Option.some child =>
        if remaining.isEmpty then Except.ok (Option.some child)
        else descendantList child remaining


/-!
## Size measures and unfolding equations

The mutual structural definitions compile, reduce and compute, but the
automatic equation-lemma generator does not cope with their compiled
form, so the unfolding equations used by the proofs are stated by hand
and proved by definitional reduction.
-/

mutual

/-- Size of a `MathObject` tree (used as a termination measure for
proofs by induction mirroring the recursion of `mEq`). -/
def sizeMO : MathObject → Nat
  | .mk _ _ _ _ _ _ mt cs => 1 + sizeOpt mt + sizeL cs

/-- Size of an optional `MathObject`. -/
def sizeOpt : OptMO → Nat
  | .none => 0
  | .some t => 1 + sizeMO t

/-- Size of a `MathObject` list. -/
def sizeL : MOList → Nat
  | .nil => 0
  | .cons h t => 1 + sizeMO h + sizeL t

end

theorem mEq_eq (o1 : Nat) (n1 : String) (nm1 v1 ln1 : Option String)
    (bv1 : Bool) (mt1 : OptMO) (cs1 : MOList) (b : MathObject) (s : St) :
    mEq (.mk o1 n1 nm1 v1 ln1 bv1 mt1 cs1) b s =
      (if o1 == b.oid then Option.some (true, s)
       else if o1 == 0 || b.oid == 0 then Option.some (true, s)
       else if !(n1 == b.node && bv1 == b.isBoundVar && nm1 == b.name &&
                 v1 == b.value) then
         Option.some (false, s)
       else
         Option.bind
           (match mt1, b.mathTypeF with
            | .none, _ => Option.some (true, s)
            | .some x, .none => Option.some (mtCmpSentinel x s, s)
            | .some x, .some y =>
              if x.isBoundVar then Option.some (boundVarEq x y s, s)
              else mEq x y s)
           (fun p =>
             if !p.1 then Option.some (false, p.2)
             else if cs1.length != b.children.length then
               Option.some (false, p.2)
             else
               mEqFinish (markedPair (.mk o1 n1 nm1 v1 ln1 bv1 mt1 cs1) b)
                 (mEqChildren cs1 b.children true
                   (markState
                     (markedPair (.mk o1 n1 nm1 v1 ln1 bv1 mt1 cs1) b)
                     p.2)))) := by
  cases b with
  | mk o2 n2 nm2 v2 ln2 bv2 mt2 cs2 => cases mt1 <;> cases mt2 <;> rfl

theorem mEqChildren_cons (c0 c1 : MathObject) (t0 t1 : MOList)
    (acc : Bool) (s : St) :
    mEqChildren (.cons c0 t0) (.cons c1 t1) acc s =
      Option.bind
        (if c0.isBoundVar then Option.some (boundVarEq c0 c1 s, s)
         else mEq c0 c1 s)
        (fun q => mEqChildren t0 t1 (acc && q.1) q.2) :=
  rfl

theorem mEqChildren_nil (l : MOList) (acc : Bool) (s : St) :
    mEqChildren .nil l acc s = Option.some (acc, s) :=
  rfl

theorem contains_eq (o1 : Nat) (n1 : String) (nm1 v1 ln1 : Option String)
    (bv1 : Bool) (mt1 : OptMO) (cs1 : MOList) (other : MathObject)
    (s : St) :
    contains (.mk o1 n1 nm1 v1 ln1 bv1 mt1 cs1) other s =
      (if o1 == 0 then Option.some (0, s)
       else
         Option.bind (mEq (.mk o1 n1 nm1 v1 ln1 bv1 mt1 cs1) other s)
           (fun p =>
             if p.1 then Option.some (1, p.2)
             else
               Option.bind (containsDebugLoop cs1 other p.2)
                 (fun s2 => containsSum cs1 other s2))) :=
  rfl

theorem unfoldRec_zero (pats : List DefinitionPattern) (t : MathObject)
    (s : St) :
    unfoldImplicitDefinitionRecursively pats 0 t s = Option.none :=
  rfl

theorem unfoldRec_succ (pats : List DefinitionPattern) (fuel : Nat)
    (t : MathObject) (s : St) :
    unfoldImplicitDefinitionRecursively pats (fuel + 1) t s =
      (let u : MathObject := (unfoldImplicitDefinition pats t).headD t
       Option.bind
         (unfoldChildrenWith
           (unfoldImplicitDefinitionRecursively pats fuel) u.children s)
         (fun p =>
           mkMO false u.node u.name u.value u.leanName (.some u.mathType)
             p.1 p.2)) :=
  rfl

theorem unfoldChildrenWith_nil
    (f : MathObject → St → Option (MathObject × St)) (s : St) :
    unfoldChildrenWith f .nil s = Option.some (.nil, s) :=
  rfl

theorem unfoldChildrenWith_cons
    (f : MathObject → St → Option (MathObject × St)) (c : MathObject)
    (t : MOList) (s : St) :
    unfoldChildrenWith f (.cons c t) s =
      Option.bind (f c s)
        (fun p =>
          Option.map (fun q => (MOList.cons p.1 q.1, q.2))
            (unfoldChildrenWith f t p.2)) :=
  rfl

theorem noMatchIn_eq (pats : List DefinitionPattern) (o1 : Nat)
    (n1 : String) (nm1 v1 ln1 : Option String) (bv1 : Bool) (mt1 : OptMO)
    (cs1 : MOList) :
    noMatchIn pats (.mk o1 n1 nm1 v1 ln1 bv1 mt1 cs1) =
      ((unfoldImplicitDefinition pats
          (.mk o1 n1 nm1 v1 ln1 bv1 mt1 cs1)).isEmpty &&
        noMatchInList pats cs1) :=
  rfl


theorem mEqChildren_cons_nil (c0 : MathObject) (t0 : MOList) (acc : Bool)
    (s : St) :
    mEqChildren (.cons c0 t0) .nil acc s = Option.some (acc, s) := rfl

/-- State-evolution invariant of one `MathObject.__eq__` call: every
`bound_var_nb` slot is either untouched or left at the default `-1`. -/
def tagsPreserved (s s' : St) : Prop :=
  ∀ o, s'.tags o = s.tags o ∨ s'.tags o = -1

theorem tagsPreserved_refl (s : St) : tagsPreserved s s := fun _ => Or.inl rfl

theorem tagsPreserved_trans {s1 s2 s3 : St} (h1 : tagsPreserved s1 s2)
    (h2 : tagsPreserved s2 s3) : tagsPreserved s1 s3 := by
  intro o
  rcases h2 o with h | h
  · rw [h]; exact h1 o
  · exact Or.inr h

theorem setTag_tags (s : St) (o : Nat) (v : Int) (o' : Nat) :
    (s.setTag o v).tags o' = if o' = o then v else s.tags o' := rfl

theorem markState_tags_other (u w : MathObject) (s : St) (o : Nat)
    (hu : o ≠ u.oid) (hw : o ≠ w.oid) :
    (markState (Option.some (u, w)) s).tags o = s.tags o := by
  simp [markState, markIdenticalBoundVars, St.setTag, hu, hw]

mutual

theorem mEq_tags : ∀ (a b : MathObject) (s : St) (r : Bool) (s' : St),
    mEq a b s = Option.some (r, s') → tagsPreserved s s'
  | .mk o1 n1 nm1 v1 ln1 bv1 mt1 cs1, .mk o2 n2 nm2 v2 ln2 bv2 mt2 cs2,
    s, r, s', h => by
    rw [mEq_eq] at h
    simp only [MathObject.oid, MathObject.node, MathObject.name,
      MathObject.value, MathObject.isBoundVar, MathObject.mathTypeF,
      MathObject.children] at h
    split at h
    · simp only [Option.some.injEq, Prod.mk.injEq] at h
      obtain ⟨-, rfl⟩ := h
      exact tagsPreserved_refl s
    · split at h
      · simp only [Option.some.injEq, Prod.mk.injEq] at h
        obtain ⟨-, rfl⟩ := h
        exact tagsPreserved_refl s
      · split at h
        · simp only [Option.some.injEq, Prod.mk.injEq] at h
          obtain ⟨-, rfl⟩ := h
          exact tagsPreserved_refl s
        · rw [Option.bind_eq_some] at h
          obtain ⟨p, hM, hF⟩ := h
          have hp : tagsPreserved s p.2 := by
            split at hM
            · simp only [Option.some.injEq] at hM
              rw [← hM]
              exact tagsPreserved_refl s
            · simp only [Option.some.injEq] at hM
              rw [← hM]
              exact tagsPreserved_refl s
            · rename_i x y
              split at hM
              · simp only [Option.some.injEq] at hM
                rw [← hM]
                exact tagsPreserved_refl s
              · exact mEq_tags x y s p.1 p.2 (by rw [hM])
          split at hF
          · simp only [Option.some.injEq, Prod.mk.injEq] at hF
            obtain ⟨-, rfl⟩ := hF
            exact hp
          · split at hF
            · simp only [Option.some.injEq, Prod.mk.injEq] at hF
              obtain ⟨-, rfl⟩ := hF
              exact hp
            · cases hmk : markedPair
                  (.mk o1 n1 nm1 v1 ln1 bv1 mt1 cs1)
                  (.mk o2 n2 nm2 v2 ln2 bv2 mt2 cs2) with
              | none =>
                rw [hmk] at hF
                cases hres : mEqChildren cs1 cs2 true
                    (markState Option.none p.2) with
                | none =>
                  rw [hres] at hF
                  exact Option.noConfusion hF
                | some q =>
                  obtain ⟨q1, q3⟩ := q
                  rw [hres] at hF
                  have hq : tagsPreserved p.2 q3 :=
                    mEqChildren_tags cs1 cs2 true
                      (markState Option.none p.2) q1 q3 (by rw [hres])
                  rw [show mEqFinish Option.none (Option.some (q1, q3)) =
                      Option.some (q1, q3) from rfl] at hF
                  simp only [Option.some.injEq, Prod.mk.injEq] at hF
                  obtain ⟨-, rfl⟩ := hF
                  exact tagsPreserved_trans hp hq
              | some uw =>
                obtain ⟨u, w⟩ := uw
                rw [hmk] at hF
                cases hres : mEqChildren cs1 cs2 true
                    (markState (Option.some (u, w)) p.2) with
                | none =>
                  rw [hres] at hF
                  exact Option.noConfusion hF
                | some q =>
                  obtain ⟨q1, q3⟩ := q
                  rw [hres] at hF
                  have hq : tagsPreserved
                      (markState (Option.some (u, w)) p.2) q3 :=
                    mEqChildren_tags cs1 cs2 true _ q1 q3 (by rw [hres])
                  rw [show mEqFinish (Option.some (u, w))
                        (Option.some (q1, q3)) =
                      (if w.isBoundVar then
                        Option.some (q1, (q3.setTag u.oid (-1)).setTag
                          w.oid (-1))
                       else Option.none) from rfl] at hF
                  split at hF
                  · simp only [Option.some.injEq, Prod.mk.injEq] at hF
                    obtain ⟨-, rfl⟩ := hF
                    intro o
                    rw [setTag_tags, setTag_tags]
                    by_cases h1 : o = w.oid
                    · simp [h1]
                    · by_cases h2 : o = u.oid
                      · simp [h1, h2]
                      · simp only [h1, h2, if_false]
                        rcases hq o with hq' | hq'
                        · rw [hq', markState_tags_other u w p.2 o h2 h1]
                          exact hp o
                        · exact Or.inr hq'
                  · exact Option.noConfusion hF
termination_by a b s r s' h => sizeMO a
decreasing_by
  all_goals (subst_vars; simp only [sizeMO, sizeOpt, sizeL]; omega)

theorem mEqChildren_tags :
    ∀ (l1 l2 : MOList) (acc : Bool) (s : St) (r : Bool) (s' : St),
    mEqChildren l1 l2 acc s = Option.some (r, s') → tagsPreserved s s'
  | .nil, l2, acc, s, r, s', h => by
    rw [mEqChildren_nil] at h
    simp only [Option.some.injEq, Prod.mk.injEq] at h
    obtain ⟨-, rfl⟩ := h
    exact tagsPreserved_refl s
  | .cons c0 t0, .nil, acc, s, r, s', h => by
    rw [mEqChildren_cons_nil] at h
    simp only [Option.some.injEq, Prod.mk.injEq] at h
    obtain ⟨-, rfl⟩ := h
    exact tagsPreserved_refl s
  | .cons c0 t0, .cons c1 t1, acc, s, r, s', h => by
    rw [mEqChildren_cons, Option.bind_eq_some] at h
    obtain ⟨q, hq, hrest⟩ := h
    have h1 : tagsPreserved s q.2 := by
      split at hq
      · simp only [Option.some.injEq] at hq
        rw [← hq]
        exact tagsPreserved_refl s
      · exact mEq_tags c0 c1 s q.1 q.2 (by rw [hq])
    have h2 : tagsPreserved q.2 s' :=
      mEqChildren_tags t0 t1 (acc && q.1) q.2 r s' hrest
    exact tagsPreserved_trans h1 h2
termination_by l1 l2 acc s r s' h => sizeL l1
decreasing_by
  all_goals (subst_vars; simp only [sizeMO, sizeOpt, sizeL]; omega)

end



/-!
## Example objects and states used by witnesses and counterexamples
-/

/-- A fresh session state: empty registries, zero counter, all
`bound_var_nb` slots at the default `-1`, allocator at 100. -/
def st0 : St := ⟨[], [], [], 0, fun _ => -1, 100⟩

/-- Example: a type constant `X`. -/
def exTyX : MathObject :=
  .mk 6 "TYPE_X" Option.none Option.none Option.none false .none .nil

/-- Example: a bound variable named `x` of type `X`. -/
def exBvx : MathObject :=
  .mk 7 "LOCAL_CONSTANT" (Option.some "x") Option.none (Option.some "")
    true (.some exTyX) .nil

/-- Example: a bound variable named `y` of type `X`. -/
def exBvy : MathObject :=
  .mk 8 "LOCAL_CONSTANT" (Option.some "y") Option.none (Option.some "")
    true (.some exTyX) .nil

/-- Example: a body mentioning `x`. -/
def exBodyx : MathObject :=
  .mk 9 "PROP_BELONGS" Option.none Option.none Option.none false .none
    (.cons exBvx .nil)

/-- Example: the same body with `y`. -/
def exBodyy : MathObject :=
  .mk 10 "PROP_BELONGS" Option.none Option.none Option.none false .none
    (.cons exBvy .nil)

/-- Example: `∀ x : X, x ∈ …`. -/
def exQx : MathObject :=
  .mk 11 "QUANT_∀" Option.none Option.none Option.none false .none
    (.cons exTyX (.cons exBvx (.cons exBodyx .nil)))

/-- Example: the alpha-equivalent `∀ y : X, y ∈ …`. -/
def exQy : MathObject :=
  .mk 12 "QUANT_∀" Option.none Option.none Option.none false .none
    (.cons exTyX (.cons exBvy (.cons exBodyy .nil)))

/-- Example: a plain leaf variable. -/
def exLeaf : MathObject :=
  .mk 5 "LOCAL_CONSTANT" (Option.some "x") Option.none Option.none false
    .none .nil

/-- Reflexivity of `MathObject.__eq__` by the identity shortcut. -/
theorem mEq_refl (a : MathObject) (s : St) :
    mEq a a s = Option.some (true, s) := by
  cases a with
  | mk o n nm v ln b mt cs =>
    rw [mEq_eq]
    simp only [MathObject.oid, beq_self_eq_true, if_true]

/-!
## Claim C1
-/

/-- Claim C1, counterexample: comparing `∀x, P(x)` with `∀y, P(y)`
writes a match tag into both bound variables (the counter advances
from 0 to 1 and the written tag is 1), and after the call both slots
hold `-1` — the default — not `0` as the claim (following the spec)
states. -/
theorem c1_counterexample :
    (mEq exQx exQy st0).map
        (fun p => (p.1, p.2.boundVarCounter, p.2.tags 7, p.2.tags 8)) =
      Option.some (true, 1, -1, -1) ∧ ¬((-1 : Int) = 0) :=
  ⟨by decide, by decide⟩

/-- Claim C1 (amended): for every MathObject `a`, `equals(a, a)`
returns `true` (reflexivity); and starting from a state in which every
match tag holds the default `-1`, every exit path of a top-level
`equals(a, b)` call on which the call returns (comparison succeeded or
failed) leaves every match tag at the default `-1` — the tags written
during the call are reset before the call returns (to `-1`, not
`0`). -/
theorem c1_equals_refl_and_tags_reset (a b : MathObject) (s : St)
    (hdef : ∀ o, s.tags o = -1) :
    mEq a a s = Option.some (true, s) ∧
    ∀ p, mEq a b s = Option.some p → ∀ o, p.2.tags o = -1 := by
  refine ⟨mEq_refl a s, fun p hp o => ?_⟩
  rcases mEq_tags a b s p.1 p.2 (by rw [Prod.mk.eta]; exact hp) o with
    h | h
  · rw [h]; exact hdef o
  · exact h

/-- Claim C1, witness: the amended theorem applied to the concrete
alpha-equivalent quantifiers, whose comparison does write tags. -/
theorem c1_witness :
    (∀ o, st0.tags o = -1) ∧
    (mEq exQx exQx st0 = Option.some (true, st0) ∧
      ∀ p, mEq exQx exQy st0 = Option.some p → ∀ o, p.2.tags o = -1) ∧
    (mEq exQx exQy st0).isSome = true :=
  ⟨fun _ => rfl,
   c1_equals_refl_and_tags_reset exQx exQy st0 (fun _ => rfl),
   by decide⟩

/-!
## Claim C2
-/

/-- Claim C2: for every pair of MathObjects `a`, `b` that are not the
same object, if `a` or `b` is the `NO_MATH_TYPE` sentinel then
`MathObject.__eq__(a, b)` returns `True` (and leaves the state
untouched): the sentinel is absorbing under equality. -/
theorem c2_no_math_type_absorbing (a b : MathObject) (s : St)
    (hne : a.oid ≠ b.oid)
    (hs : a.isNoMathType = true ∨ b.isNoMathType = true) :
    mEq a b s = Option.some (true, s) := by
  cases a with
  | mk o1 n1 nm1 v1 ln1 bv1 mt1 cs1 =>
    rw [mEq_eq]
    have hne' : (o1 == b.oid) = false := by
      have h' : o1 ≠ b.oid := hne
      simp [h']
    have hs' : (o1 == 0 || b.oid == 0) = true := by
      rcases hs with h | h
      · have h' : (o1 == 0) = true := h
        simp [h']
      · have h' : (b.oid == 0) = true := h
        simp [h']
    simp [hne', hs']

/-- Claim C2, witness: the sentinel compares equal to an unrelated
leaf variable, in both argument orders. -/
theorem c2_witness :
    NO_MATH_TYPE.oid ≠ exLeaf.oid ∧
    mEq NO_MATH_TYPE exLeaf st0 = Option.some (true, st0) ∧
    mEq exLeaf NO_MATH_TYPE st0 = Option.some (true, st0) :=
  ⟨by decide,
   c2_no_math_type_absorbing NO_MATH_TYPE exLeaf st0 (by decide)
     (Or.inl (by decide)),
   c2_no_math_type_absorbing exLeaf NO_MATH_TYPE st0 (by decide)
     (Or.inr (by decide))⟩

/-!
## Claim C4
-/

/-- The BoundVar equality test as the claim states it: identity;
never equal to a non-BoundVar other than itself; if BOTH tags are
non-default, equal iff the tags agree; otherwise equal iff the display
names agree. -/
def bvEqSpecOrig (v w : MathObject) (s : St) : Bool :=
  if v.oid == w.oid then true
  else if !w.isBoundVar then false
  else if v.boundVarNb s != -1 && w.boundVarNb s != -1 then
    v.boundVarNb s == w.boundVarNb s
  else v.name == w.name

/-- The BoundVar equality test as the code implements it (amended
claim): identity; never equal to a non-BoundVar other than itself; if
THE LEFT OPERAND's tag is non-default, equal iff the tags agree (the
right operand's tag is not checked for being set); otherwise equal iff
the display names agree. -/
def bvEqSpecAmended (v w : MathObject) (s : St) : Bool :=
  if v.oid == w.oid then true
  else if !w.isBoundVar then false
  else if v.boundVarNb s != -1 then v.boundVarNb s == w.boundVarNb s
  else v.name == w.name

/-- A state where the bound variable with id 7 carries tag 5 and all
other slots are default. -/
def exStTag7 : St :=
  ⟨[], [], [], 5, fun o => if o = 7 then 5 else -1, 100⟩

/-- Example: a second bound variable also displayed `x`, distinct
from `exBvx`. -/
def exBvx2 : MathObject :=
  .mk 13 "LOCAL_CONSTANT" (Option.some "x") Option.none (Option.some "")
    true (.some exTyX) .nil

/-- Claim C4, counterexample: two distinct bound variables with the
same display name, of which only the left carries a non-default tag.
The claim (both tags non-default ⇒ compare tags, otherwise compare
names) predicts `True`; `BoundVar.__eq__` compares the tags as soon as
the LEFT tag alone is set and returns `False`. -/
theorem c4_counterexample :
    boundVarEq exBvx exBvx2 exStTag7 = false ∧
    bvEqSpecOrig exBvx exBvx2 exStTag7 = true ∧
    exBvx.name = exBvx2.name ∧
    exBvx.boundVarNb exStTag7 ≠ -1 ∧
    exBvx2.boundVarNb exStTag7 = -1 :=
  ⟨by decide, by decide, by decide, by decide, by decide⟩

/-- Claim C4 (amended): `BoundVar.__eq__` returns `True` for the same
object; against a non-BoundVar it returns `False`; otherwise, if the
left operand carries a non-default match tag it returns `True` exactly
when the two tags are equal (even if the right tag is still default);
otherwise it returns `True` exactly when the display names are
equal. -/
theorem c4_bound_var_eq (v w : MathObject) (s : St) :
    boundVarEq v w s = bvEqSpecAmended v w s := by
  simp only [boundVarEq, bvEqSpecAmended]
  by_cases h1 : (v.oid == w.oid) <;> simp [h1] <;>
    by_cases h2 : w.isBoundVar <;> simp [h2]

/-!
## Claim C8
-/

/-- A state with every registry table populated. -/
def exStFull : St :=
  ⟨[("id1", exLeaf)], [(Option.some "c", PROP)], ["ℕ"], 7,
   fun _ => -1, 100⟩

/-- Claim C8, counterexample: `MathObject.clear()` does NOT clear the
`constants` display-name table — a constant cached before the call is
still reachable through it afterwards. -/
theorem c8_counterexample :
    (clear exStFull).constants = [(Option.some "c", PROP)] ∧
    (clear exStFull).constants ≠ [] := by
  refine ⟨rfl, by decide⟩

/-- Claim C8 (amended): `MathObject.clear()` resets the `Variables`
identifier table, the numeric-domain list and the bound-variable
counter, but leaves the `constants` display-name table (and the
per-object tag slots and allocator) untouched. -/
theorem c8_clear (s : St) :
    (clear s).Variables = [] ∧ (clear s).numberSets = [] ∧
    (clear s).boundVarCounter = 0 ∧ (clear s).constants = s.constants ∧
    (clear s).tags = s.tags ∧ (clear s).nextOid = s.nextOid :=
  ⟨rfl, rfl, rfl, rfl, rfl, rfl⟩



/-!
## Claim C7
-/

/-- The bound-variable wiring never fires for an `APPLICATION` node
(it is not a binder node). -/
theorem wireBoundVar_application (cs : MOList) :
    wireBoundVar "APPLICATION" cs = cs := by
  unfold wireBoundVar
  split
  · rename_i c0 c1 c2
    have hfalse :
        (decide ("APPLICATION" ∈ boundVarNodes) && c1.isBoundVar) =
          false := by
      simp [boundVarNodes]
    rw [hfalse]
    simp
  · rfl

/-- Claim C7: constructing a MathObject with node `'APPLICATION'`
whose first child is itself an `'APPLICATION'` node yields a children
list equal to the inner application's children concatenated with the
outer application's second child; in particular building
`App(App(f,x),y)` produces the flat child list `[f, x, y]`, equal to
that of a directly constructed 3-child application. -/
theorem c7_uncurrying :
    (∀ (bv : Bool) (nm v ln : Option String) (mt : OptMO)
        (c0 c1 : MathObject) (rest : MOList) (s : St),
        c0.node = "APPLICATION" →
        ∃ m s', mkMO bv "APPLICATION" nm v ln mt
            (.cons c0 (.cons c1 rest)) s = Option.some (m, s') ∧
          m.children = c0.children.append (.cons c1 .nil)) ∧
    (∀ (f x y : MathObject) (s t : St), f.node ≠ "APPLICATION" →
        ∃ inner s1 outer s2 direct t1,
          mkMO false "APPLICATION" Option.none Option.none Option.none
            .none (.cons f (.cons x .nil)) s = Option.some (inner, s1) ∧
          mkMO false "APPLICATION" Option.none Option.none Option.none
            .none (.cons inner (.cons y .nil)) s1 =
            Option.some (outer, s2) ∧
          mkMO false "APPLICATION" Option.none Option.none Option.none
            .none (.cons f (.cons x (.cons y .nil))) t =
            Option.some (direct, t1) ∧
          outer.children = .cons f (.cons x (.cons y .nil)) ∧
          direct.children = outer.children) := by
  constructor
  · intro bv nm v ln mt c0 c1 rest s h
    refine ⟨.mk s.nextOid "APPLICATION" nm v ln bv mt
      (c0.children.append (.cons c1 .nil)),
      { s with nextOid := s.nextOid + 1 }, ?_, rfl⟩
    simp [mkMO, wireBoundVar_application, h]
  · intro f x y s t hf
    have hf' : (f.node == "APPLICATION") = false := by simp [hf]
    refine ⟨.mk s.nextOid "APPLICATION" Option.none Option.none
      Option.none false .none (.cons f (.cons x .nil)),
      { s with nextOid := s.nextOid + 1 },
      .mk (s.nextOid + 1) "APPLICATION" Option.none Option.none
        Option.none false .none (.cons f (.cons x (.cons y .nil))),
      { s with nextOid := s.nextOid + 2 },
      .mk t.nextOid "APPLICATION" Option.none Option.none Option.none
        false .none (.cons f (.cons x (.cons y .nil))),
      { t with nextOid := t.nextOid + 1 }, ?_, ?_, ?_, rfl, rfl⟩
    · simp [mkMO, wireBoundVar_application, hf']
    · simp [mkMO, wireBoundVar_application, MathObject.node,
        MathObject.children, MOList.append]
    · simp [mkMO, wireBoundVar_application, hf']

/-- Example: an already-flat inner application `f(x)`. -/
def exInnerApp : MathObject :=
  .mk 20 "APPLICATION" Option.none Option.none Option.none false .none
    (.cons exLeaf (.cons exTyX .nil))

/-- Claim C7, witness: the flattening at concrete objects. -/
theorem c7_witness :
    (∃ m s', mkMO false "APPLICATION" Option.none Option.none Option.none
        .none (.cons exInnerApp (.cons exLeaf .nil)) st0 =
        Option.some (m, s') ∧
      m.children = exInnerApp.children.append (.cons exLeaf .nil)) ∧
    (∃ inner s1 outer s2 direct t1,
      mkMO false "APPLICATION" Option.none Option.none Option.none
        .none (.cons exTyX (.cons exLeaf .nil)) st0 =
        Option.some (inner, s1) ∧
      mkMO false "APPLICATION" Option.none Option.none Option.none
        .none (.cons inner (.cons exBvx .nil)) s1 =
        Option.some (outer, s2) ∧
      mkMO false "APPLICATION" Option.none Option.none Option.none
        .none (.cons exTyX (.cons exLeaf (.cons exBvx .nil))) st0 =
        Option.some (direct, t1) ∧
      outer.children = .cons exTyX (.cons exLeaf (.cons exBvx .nil)) ∧
      direct.children = outer.children) :=
  ⟨c7_uncurrying.1 false Option.none Option.none Option.none .none
     exInnerApp exLeaf .nil st0 rfl,
   c7_uncurrying.2 exTyX exLeaf exBvx st0 st0 (by decide)⟩

/-!
## Claim C10
-/

/-- Claim C10, counterexample: on a node with one child, the list path
`[-2]` has its leading index out of range for the children list
(Python indexing raises `IndexError`), yet `descendant` does not
return `None` — the guard only catches indices `≥ len(children)`, so
the call raises instead. -/
theorem c10_counterexample :
    descendantList exBodyx [-2] = Except.error () ∧
    pyIndex exBodyx.children (-2) = Option.none ∧
    ¬((exBodyx.children.length : Int) ≤ -2) :=
  ⟨rfl, rfl, by decide⟩

/-- Claim C10 (amended): `descendant` is partial in an asymmetric way:
with a tuple or list path, a leading index `≥ len(children)` returns
`None` (no error) — though a negative index below `-len(children)`
still raises; with a plain integer index the children list is indexed
unguarded, so every index `i ≥ len(children)` raises `IndexError`
instead of returning `None`. -/
theorem c10_descendant (t : MathObject) (i : Int) (rest : List Int)
    (h : (t.children.length : Int) ≤ i) :
    descendantList t (i :: rest) = Except.ok Option.none ∧
    descendantInt t i = Option.none := by
  constructor
  · unfold descendantList
    rw [if_pos h]
  · unfold descendantInt pyIndex
    rw [if_neg (by omega), if_neg (by omega)]

/-- Claim C10, witness: index 3 on a node with one child. -/
theorem c10_witness :
    descendantList exBodyx [3] = Except.ok Option.none ∧
    descendantInt exBodyx 3 = Option.none :=
  c10_descendant exBodyx 3 [] (by decide)

/-!
## Claim C9
-/

/-- Names outside the four-element chain are ignored. -/
theorem addNumbersSet_not_mem (ns : List String) (name : String)
    (h : name ∉ NUMBER_SETS_LIST) : addNumbersSet ns name = ns := by
  unfold addNumbersSet
  rw [if_neg]
  intro hc
  exact h hc.1

/-- One `add_numbers_set` step keeps the list a sublist of the chain
(finite check over the 16 possible sublists and 4 possible names). -/
theorem addNumbersSet_sublists_all :
    ∀ ns ∈ NUMBER_SETS_LIST.sublists, ∀ name ∈ NUMBER_SETS_LIST,
      addNumbersSet ns name ∈ NUMBER_SETS_LIST.sublists := by decide

/-- One `add_numbers_set` step keeps the invariant, for any name. -/
theorem addNumbersSet_inv (ns : List String) (name : String)
    (h : ns ∈ NUMBER_SETS_LIST.sublists) :
    addNumbersSet ns name ∈ NUMBER_SETS_LIST.sublists := by
  by_cases hn : name ∈ NUMBER_SETS_LIST
  · exact addNumbersSet_sublists_all ns h name hn
  · rw [addNumbersSet_not_mem ns name hn]; exact h

/-- The invariant propagates through any call sequence. -/
theorem foldl_addNumbersSet_inv (names : List String)
    (acc : List String) (h : acc ∈ NUMBER_SETS_LIST.sublists) :
    names.foldl addNumbersSet acc ∈ NUMBER_SETS_LIST.sublists := by
  induction names generalizing acc with
  | nil => exact h
  | cons x xs ih => exact ih _ (addNumbersSet_inv acc x h)

/-- Claim C9: after any sequence of `add_numbers_set(name)` calls with
arbitrary name strings, `number_sets` is a duplicate-free sublist of
`['ℕ', 'ℤ', 'ℚ', 'ℝ']` sorted by position in that chain; names
outside the chain are ignored; and inserting the names in the order
ℝ, ℕ, ℚ, ℤ yields exactly `['ℕ', 'ℤ', 'ℚ', 'ℝ']`. -/
theorem c9_number_sets_ordered (names : List String) :
    (names.foldl addNumbersSet []).Sublist NUMBER_SETS_LIST ∧
    (names.foldl addNumbersSet []).Nodup ∧
    (∀ (ns : List String) (name : String), name ∉ NUMBER_SETS_LIST →
      addNumbersSet ns name = ns) ∧
    ["ℝ", "ℕ", "ℚ", "ℤ"].foldl addNumbersSet [] = NUMBER_SETS_LIST := by
  have hsub : (names.foldl addNumbersSet []).Sublist NUMBER_SETS_LIST :=
    List.mem_sublists.mp (foldl_addNumbersSet_inv names [] (by decide))
  exact ⟨hsub, hsub.nodup (by decide), addNumbersSet_not_mem, by decide⟩

/-- Claim C9, witness: a concrete call sequence with a junk name. -/
theorem c9_witness :
    (["ℝ", "ℕ", "xyz"].foldl addNumbersSet []).Sublist
      NUMBER_SETS_LIST ∧
    addNumbersSet ["ℕ"] "xyz" = ["ℕ"] :=
  ⟨(c9_number_sets_ordered ["ℝ", "ℕ", "xyz"]).1,
   (c9_number_sets_ordered []).2.2.1 ["ℕ"] "xyz" (by decide)⟩



/-!
## Claim C3
-/

mutual

/-- The containment count as claim C3 states it (written from the
claim's words, to be compared with `contains` from the source): `1` if
the root itself matches via `MathObject.__eq__` PLUS the sum of the
counts over all children; `0` on the `NO_MATH_TYPE` sentinel. -/
def containsSpec : MathObject → MathObject → St → Option (Nat × St)
  | .mk o1 n1 nm1 v1 ln1 bv1 mt1 cs1, other, s =>
    if o1 == 0 then Option.some (0, s)
    else
      Option.bind (mEq (.mk o1 n1 nm1 v1 ln1 bv1 mt1 cs1) other s)
        (fun p =>
          Option.map (fun q => ((if p.1 then 1 else 0) + q.1, q.2))
            (containsSpecSum cs1 other p.2))

/-- Children sum for `containsSpec`. -/
def containsSpecSum : MOList → MathObject → St → Option (Nat × St)
  | .nil, _, s => Option.some (0, s)
  | .cons h t, other, s =>
    Option.bind (containsSpec h other s)
      (fun p =>
        Option.map (fun q => (p.1 + q.1, q.2))
          (containsSpecSum t other p.2))

end

/-- Example: the node `A'[NO_MATH_TYPE]` used as a needle. -/
def exC3n : MathObject :=
  .mk 43 "A" Option.none Option.none Option.none false .none
    (.cons NO_MATH_TYPE .nil)

/-- Example: the node `A[NO_MATH_TYPE]`, equal to `exC3n` via the
sentinel rule. -/
def exC3c : MathObject :=
  .mk 41 "A" Option.none Option.none Option.none false .none
    (.cons NO_MATH_TYPE .nil)

/-- Example: the haystack `A[A[NO_MATH_TYPE]]`; both the root and its
child compare equal to `exC3n`. -/
def exC3h : MathObject :=
  .mk 42 "A" Option.none Option.none Option.none false .none
    (.cons exC3c .nil)

/-- Claim C3, counterexample: on a haystack whose root AND child both
compare equal to the needle, `contains` returns `1` — when the root
matches, the children are not examined — while the count the claim
describes (root match plus children sums) is `2`. -/
theorem c3_counterexample :
    (contains exC3h exC3n st0).map Prod.fst = Option.some 1 ∧
    (containsSpec exC3h exC3n st0).map Prod.fst = Option.some 2 ∧
    (mEq exC3h exC3n st0).map Prod.fst = Option.some true ∧
    (mEq exC3c exC3n st0).map Prod.fst = Option.some true :=
  ⟨by decide, by decide, by decide, by decide⟩

/-- Claim C3 (amended): `contains(h, n)` returns 0 when `h` is the
`NO_MATH_TYPE` sentinel regardless of `n`; returns 1 — without adding
the children counts — as soon as the root matches `n` via
`MathObject.__eq__`; and only when the root does not match does it
return the sum of `contains(c, n)` over the children (after the stray
debug loop re-runs them); in particular `contains(t, t) = 1 ≥ 1` for
every non-sentinel `t`. -/
theorem c3_contains :
    (∀ (a n : MathObject) (s : St), a.isNoMathType = true →
      contains a n s = Option.some (0, s)) ∧
    (∀ (t : MathObject) (s : St), t.isNoMathType = false →
      contains t t s = Option.some (1, s)) ∧
    (∀ (a n : MathObject) (s s' : St), a.isNoMathType = false →
      mEq a n s = Option.some (true, s') →
      contains a n s = Option.some (1, s')) ∧
    (∀ (a n : MathObject) (s s' : St), a.isNoMathType = false →
      mEq a n s = Option.some (false, s') →
      contains a n s =
        Option.bind (containsDebugLoop a.children n s')
          (fun s2 => containsSum a.children n s2)) := by
  refine ⟨?_, ?_, ?_, ?_⟩
  · intro a n s h
    cases a with
    | mk o1 n1 nm1 v1 ln1 bv1 mt1 cs1 =>
      rw [contains_eq, if_pos]
      exact h
  · intro t s h
    cases t with
    | mk o1 n1 nm1 v1 ln1 bv1 mt1 cs1 =>
      rw [contains_eq, if_neg, mEq_refl]
      · rfl
      · intro hc
        rw [show MathObject.isNoMathType (.mk o1 n1 nm1 v1 ln1 bv1 mt1
          cs1) = (o1 == 0) from rfl] at h
        rw [h] at hc
        exact Bool.false_ne_true hc
  · intro a n s s' h hm
    cases a with
    | mk o1 n1 nm1 v1 ln1 bv1 mt1 cs1 =>
      rw [contains_eq, if_neg, hm]
      · rfl
      · intro hc
        rw [show MathObject.isNoMathType (.mk o1 n1 nm1 v1 ln1 bv1 mt1
          cs1) = (o1 == 0) from rfl] at h
        rw [h] at hc
        exact Bool.false_ne_true hc
  · intro a n s s' h hm
    cases a with
    | mk o1 n1 nm1 v1 ln1 bv1 mt1 cs1 =>
      rw [contains_eq, if_neg, hm]
      · rfl
      · intro hc
        rw [show MathObject.isNoMathType (.mk o1 n1 nm1 v1 ln1 bv1 mt1
          cs1) = (o1 == 0) from rfl] at h
        rw [h] at hc
        exact Bool.false_ne_true hc

/-- Claim C3, witness: the amended theorem at concrete inputs. -/
theorem c3_witness :
    contains NO_MATH_TYPE exLeaf st0 = Option.some (0, st0) ∧
    contains exQx exQx st0 = Option.some (1, st0) :=
  ⟨c3_contains.1 NO_MATH_TYPE exLeaf st0 rfl,
   c3_contains.2.1 exQx st0 rfl⟩



/-!
## Claim C5: definitions and support lemmas
-/

/-- Is the head of the list an `APPLICATION` node? (the uncurrying
trigger of `MathObject.__init__`). -/
def MOList.headIsApp : MOList → Bool
  | .nil => false
  | .cons c0 _ => c0.node == "APPLICATION"

mutual

/-- No `BoundVar` anywhere in the tree (`math_type`s excluded — they
are compared by identity). -/
def noBoundVarIn : MathObject → Bool
  | .mk _ _ _ _ _ b _ cs => !b && noBoundVarInList cs

/-- `noBoundVarIn` over a child list. -/
def noBoundVarInList : MOList → Bool
  | .nil => true
  | .cons h t => noBoundVarIn h && noBoundVarInList t

end

mutual

/-- Every `APPLICATION` node in the tree is already uncurried (its
first child is not itself an `APPLICATION`) — the invariant
`MathObject.__init__` establishes on every tree it builds. -/
def appFlat : MathObject → Bool
  | .mk _ n _ _ _ _ _ cs =>
    (n != "APPLICATION" || !cs.headIsApp) && appFlatList cs

/-- `appFlat` over a child list. -/
def appFlatList : MOList → Bool
  | .nil => true
  | .cons h t => appFlat h && appFlatList t

end

/-- No element of the list is (top-level) a `BoundVar`. -/
def topNotBV : MOList → Bool
  | .nil => true
  | .cons h t => !h.isBoundVar && topNotBV t

theorem noBoundVarIn_eq (o : Nat) (n : String) (nm v ln : Option String)
    (b : Bool) (mt : OptMO) (cs : MOList) :
    noBoundVarIn (.mk o n nm v ln b mt cs) =
      (!b && noBoundVarInList cs) := rfl

theorem appFlat_eq (o : Nat) (n : String) (nm v ln : Option String)
    (b : Bool) (mt : OptMO) (cs : MOList) :
    appFlat (.mk o n nm v ln b mt cs) =
      ((n != "APPLICATION" || !cs.headIsApp) && appFlatList cs) := rfl

theorem wireBoundVar_cons3 (n : String) (c0 c1 c2 : MathObject) :
    wireBoundVar n (.cons c0 (.cons c1 (.cons c2 .nil))) =
      (if decide (n ∈ boundVarNodes) && c1.isBoundVar then
        .cons c0 (.cons (setMathTypeF c1 (.some c0)) (.cons c2 .nil))
      else .cons c0 (.cons c1 (.cons c2 .nil))) := rfl

/-- The bound-variable wiring is a no-op when `children[1]` is not a
`BoundVar`. -/
theorem wireBoundVar_topNotBV (n : String) (cs : MOList)
    (h : topNotBV cs = true) : wireBoundVar n cs = cs := by
  cases cs with
  | nil => rfl
  | cons c0 t0 =>
    cases t0 with
    | nil => rfl
    | cons c1 t1 =>
      cases t1 with
      | nil => rfl
      | cons c2 t2 =>
        cases t2 with
        | nil =>
          simp only [topNotBV, Bool.and_eq_true, Bool.not_eq_true'] at h
          rw [wireBoundVar_cons3, h.2.1]
          simp
        | cons c3 t3 => rfl

/-- `children[1]` of a `topNotBV` list is not a `BoundVar`. -/
theorem get1_not_bv (cs : MOList) (h : topNotBV cs = true) :
    (match cs.get? 1 with
     | Option.some c => c.isBoundVar
     | Option.none => false) = false := by
  cases cs with
  | nil => rfl
  | cons c0 t0 =>
    cases t0 with
    | nil => rfl
    | cons c1 t1 =>
      simp only [topNotBV, Bool.and_eq_true, Bool.not_eq_true'] at h
      simpa [MOList.get?] using h.2.1

/-- A node whose children list has no top-level `BoundVar` fails
`has_bound_var()`. -/
theorem hasBoundVar_of_topNotBV (o : Nat) (n : String)
    (nm v ln : Option String) (b : Bool) (mt : OptMO) (cs : MOList)
    (h : topNotBV cs = true) :
    MathObject.hasBoundVar (.mk o n nm v ln b mt cs) = false := by
  unfold MathObject.hasBoundVar
  rw [show (MathObject.mk o n nm v ln b mt cs).children = cs from rfl,
    get1_not_bv cs h]
  simp

/-- Field characterization of a successful `mkMO` call. -/
theorem mkMO_fields (bv : Bool) (node : String)
    (nm v ln : Option String) (mt : OptMO) (cs : MOList) (s : St)
    (m : MathObject) (s' : St)
    (h : mkMO bv node nm v ln mt cs s = Option.some (m, s')) :
    m.oid = s.nextOid ∧ m.node = node ∧ m.name = nm ∧ m.value = v ∧
    m.leanName = ln ∧ m.isBoundVar = bv ∧ m.mathTypeF = mt ∧
    s' = { s with nextOid := s.nextOid + 1 } := by
  unfold mkMO at h
  split at h
  · split at h
    · exact Option.noConfusion h
    · split at h
      · split at h
        · exact Option.noConfusion h
        · simp only [Option.some.injEq, Prod.mk.injEq] at h
          obtain ⟨rfl, rfl⟩ := h
          exact ⟨rfl, rfl, rfl, rfl, rfl, rfl, rfl, rfl⟩
      · simp only [Option.some.injEq, Prod.mk.injEq] at h
        obtain ⟨rfl, rfl⟩ := h
        exact ⟨rfl, rfl, rfl, rfl, rfl, rfl, rfl, rfl⟩
  · simp only [Option.some.injEq, Prod.mk.injEq] at h
    obtain ⟨rfl, rfl⟩ := h
    exact ⟨rfl, rfl, rfl, rfl, rfl, rfl, rfl, rfl⟩

/-- A successful `mkMO` call on children without top-level bound
variables and without the uncurrying trigger keeps the children list
as passed. -/
theorem mkMO_children (bv : Bool) (node : String)
    (nm v ln : Option String) (mt : OptMO) (cs : MOList) (s : St)
    (m : MathObject) (s' : St) (hbv : topNotBV cs = true)
    (hflat : (node != "APPLICATION" || !cs.headIsApp) = true)
    (h : mkMO bv node nm v ln mt cs s = Option.some (m, s')) :
    m.children = cs := by
  unfold mkMO at h
  rw [wireBoundVar_topNotBV node cs hbv] at h
  split at h
  · rename_i happ
    cases cs with
    | nil => exact Option.noConfusion h
    | cons c0 rest =>
      have hc0 : (c0.node == "APPLICATION") = false := by
        rcases (Bool.or_eq_true ..).mp hflat with h' | h'
        · have hne : (node != "APPLICATION") = false := by
            simp [bne, happ]
          rw [hne] at h'
          exact absurd h' Bool.false_ne_true
        · simpa [MOList.headIsApp] using h'
      dsimp only at h
      rw [if_neg (by rw [hc0]; exact Bool.false_ne_true)] at h
      simp only [Option.some.injEq, Prod.mk.injEq] at h
      obtain ⟨rfl, rfl⟩ := h
      rfl
  · simp only [Option.some.injEq, Prod.mk.injEq] at h
    obtain ⟨rfl, rfl⟩ := h
    rfl



/-- A rebuilt node — same node/name/value, `is_bound_var = False`,
`math_type` the shared original object, children pairwise equal —
compares `True` to the original (which itself has no top-level
`BoundVar` flag), with no state change. -/
theorem mEq_rebuild (o' o1 : Nat) (n1 : String)
    (nm1 v1 ln' ln1 : Option String) (bv1 : Bool) (mt1 : OptMO)
    (cs1 cs' : MOList) (s0 : St) (hbv1 : bv1 = false)
    (hcbv : topNotBV cs' = true) (hlen : cs'.length = cs1.length)
    (hch : ∀ s acc, mEqChildren cs' cs1 acc s = Option.some (acc, s)) :
    mEq (.mk o' n1 nm1 v1 ln' false
          (.some ((MathObject.mk o1 n1 nm1 v1 ln1 bv1 mt1 cs1).mathType))
          cs')
        (.mk o1 n1 nm1 v1 ln1 bv1 mt1 cs1) s0 =
      Option.some (true, s0) := by
  rw [mEq_eq]
  by_cases h1 : (o' == (MathObject.mk o1 n1 nm1 v1 ln1 bv1 mt1
      cs1).oid) = true
  · rw [if_pos h1]
  · rw [if_neg h1]
    by_cases h2 : (o' == 0 ||
        (MathObject.mk o1 n1 nm1 v1 ln1 bv1 mt1 cs1).oid == 0) = true
    · rw [if_pos h2]
    · rw [if_neg h2]
      rw [if_neg (by
        simp [MathObject.node, MathObject.name, MathObject.value,
          MathObject.isBoundVar, hbv1])]
      have hmtcmp : ∀ res : Option (Bool × St),
          res = (match OptMO.some ((MathObject.mk o1 n1 nm1 v1 ln1 bv1
              mt1 cs1).mathType),
            (MathObject.mk o1 n1 nm1 v1 ln1 bv1 mt1 cs1).mathTypeF with
           | .none, _ => Option.some (true, s0)
           | .some x, .none => Option.some (mtCmpSentinel x s0, s0)
           | .some x, .some y =>
             if x.isBoundVar then Option.some (boundVarEq x y s0, s0)
             else mEq x y s0) → res = Option.some (true, s0) := by
        intro res hres
        rw [show (MathObject.mk o1 n1 nm1 v1 ln1 bv1 mt1 cs1).mathTypeF
          = mt1 from rfl] at hres
        cases mt1 with
        | none =>
          rw [show (MathObject.mk o1 n1 nm1 v1 ln1 bv1 OptMO.none
            cs1).mathType = NO_MATH_TYPE from rfl] at hres
          rw [hres]
          rfl
        | some m =>
          rw [show (MathObject.mk o1 n1 nm1 v1 ln1 bv1 (OptMO.some m)
            cs1).mathType = m from rfl] at hres
          rw [hres]
          show (if m.isBoundVar then Option.some (boundVarEq m m s0, s0)
            else mEq m m s0) = Option.some (true, s0)
          by_cases hmbv : m.isBoundVar = true
          · rw [if_pos hmbv]
            have hb : boundVarEq m m s0 = true := by
              unfold boundVarEq
              rw [if_pos (beq_self_eq_true _)]
            rw [hb]
          · rw [if_neg hmbv, mEq_refl]
      rw [hmtcmp _ rfl, Option.some_bind]
      rw [if_neg (by simp)]
      have hlen' : (cs'.length !=
          (MathObject.mk o1 n1 nm1 v1 ln1 bv1 mt1 cs1
            ).children.length) = false := by
        rw [show (MathObject.mk o1 n1 nm1 v1 ln1 bv1 mt1 cs1).children
          = cs1 from rfl, hlen]
        simp [bne]
      rw [if_neg (by rw [hlen']; exact Bool.false_ne_true)]
      have hmarked : markedPair
          (.mk o' n1 nm1 v1 ln' false
            (.some ((MathObject.mk o1 n1 nm1 v1 ln1 bv1 mt1
              cs1).mathType)) cs')
          (.mk o1 n1 nm1 v1 ln1 bv1 mt1 cs1) = Option.none := by
        unfold markedPair
        rw [hasBoundVar_of_topNotBV _ _ _ _ _ _ _ _ hcbv]
        simp
      rw [hmarked]
      rw [show (MathObject.mk o1 n1 nm1 v1 ln1 bv1 mt1 cs1).children
        = cs1 from rfl]
      rw [show markState Option.none s0 = s0 from rfl]
      rw [hch s0 true]
      rfl

/-- List part of the C5 core lemma, for one fuel level: pointwise
consequences of a successful `unfoldChildrenWith` pass under the
no-match/no-bound-var/flat hypotheses, given the tree-level result at
the same fuel. -/
theorem unfoldChildren_noMatch (pats : List DefinitionPattern)
    (fuel : Nat)
    (ihA : ∀ (t : MathObject) (s : St) (t' : MathObject) (s1 : St),
      noMatchIn pats t = true → noBoundVarIn t = true →
      appFlat t = true →
      unfoldImplicitDefinitionRecursively pats fuel t s =
        Option.some (t', s1) →
      (∀ s0, mEq t' t s0 = Option.some (true, s0)) ∧
      t'.isBoundVar = false ∧ t'.node = t.node) :
    ∀ (cs : MOList) (s : St) (cs' : MOList) (s1 : St),
      noMatchInList pats cs = true → noBoundVarInList cs = true →
      appFlatList cs = true →
      unfoldChildrenWith
          (unfoldImplicitDefinitionRecursively pats fuel) cs s =
        Option.some (cs', s1) →
      (∀ s0 acc, mEqChildren cs' cs acc s0 = Option.some (acc, s0)) ∧
      cs'.length = cs.length ∧ topNotBV cs' = true ∧
      cs'.headIsApp = cs.headIsApp
  | .nil, s, cs', s1, _, _, _, h => by
    rw [unfoldChildrenWith_nil] at h
    simp only [Option.some.injEq, Prod.mk.injEq] at h
    obtain ⟨rfl, rfl⟩ := h
    exact ⟨fun s0 acc => mEqChildren_nil .nil acc s0, rfl, rfl, rfl⟩
  | .cons c ct, s, cs', s1, hnm, hnb, hfl, h => by
    simp only [noMatchInList, Bool.and_eq_true] at hnm
    simp only [noBoundVarInList, Bool.and_eq_true] at hnb
    simp only [appFlatList, Bool.and_eq_true] at hfl
    rw [unfoldChildrenWith_cons, Option.bind_eq_some] at h
    obtain ⟨p, hc, hmap⟩ := h
    rw [Option.map_eq_some'] at hmap
    obtain ⟨q, hq, hcs'⟩ := hmap
    simp only [Prod.mk.injEq] at hcs'
    obtain ⟨hcs', hs1'⟩ := hcs'
    obtain ⟨hceq, hcbv, hcnode⟩ :=
      ihA c s p.1 p.2 hnm.1 hnb.1 hfl.1 (by rw [Prod.mk.eta]; exact hc)
    obtain ⟨hteq, htlen, htbv, htapp⟩ :=
      unfoldChildren_noMatch pats fuel ihA ct p.2 q.1 q.2 hnm.2 hnb.2
        hfl.2 (by rw [Prod.mk.eta]; exact hq)
    subst hcs'
    refine ⟨?_, ?_, ?_, ?_⟩
    · intro s0 acc
      rw [mEqChildren_cons]
      rw [if_neg (by rw [hcbv]; exact Bool.false_ne_true)]
      rw [hceq s0, Option.some_bind]
      rw [hteq s0 (acc && true)]
      rw [Bool.and_true]
    · simp only [MOList.length, htlen]
    · simp only [topNotBV, htbv, hcbv]
      rfl
    · simp only [MOList.headIsApp, hcnode]

/-- Core lemma for claim C5: with no matching definition anywhere, no
bound variables, and already-uncurried applications, the recursive
unfolder rebuilds a structurally equal (via `MathObject.__eq__`,
leaving the state untouched), non-`BoundVar` copy with the same
node. -/
theorem unfoldRec_noMatch (pats : List DefinitionPattern) :
    ∀ (fuel : Nat) (t : MathObject) (s : St) (t' : MathObject) (s1 : St),
      noMatchIn pats t = true → noBoundVarIn t = true →
      appFlat t = true →
      unfoldImplicitDefinitionRecursively pats fuel t s =
        Option.some (t', s1) →
      (∀ s0, mEq t' t s0 = Option.some (true, s0)) ∧
      t'.isBoundVar = false ∧ t'.node = t.node := by
  intro fuel
  induction fuel with
  | zero =>
    intro t s t' s1 _ _ _ h
    rw [unfoldRec_zero] at h
    exact Option.noConfusion h
  | succ fuel ih =>
    intro t s t' s1 hnm hnb hfl h
    cases t with
    | mk o1 n1 nm1 v1 ln1 bv1 mt1 cs1 =>
      rw [noMatchIn_eq, Bool.and_eq_true] at hnm
      rw [noBoundVarIn_eq, Bool.and_eq_true] at hnb
      rw [appFlat_eq, Bool.and_eq_true] at hfl
      have hempty : unfoldImplicitDefinition pats
          (.mk o1 n1 nm1 v1 ln1 bv1 mt1 cs1) = [] :=
        List.isEmpty_iff.mp hnm.1
      rw [unfoldRec_succ] at h
      simp only [hempty, List.headD] at h
      rw [Option.bind_eq_some] at h
      obtain ⟨p, hch, hmk⟩ := h
      obtain ⟨hceq, hclen, hcbv, hcapp⟩ :=
        unfoldChildren_noMatch pats fuel ih cs1 s p.1 p.2 hnm.2 hnb.2
          hfl.2 (by rw [Prod.mk.eta]; exact hch)
      have hflat' : ((MathObject.mk o1 n1 nm1 v1 ln1 bv1 mt1 cs1).node !=
          "APPLICATION" || !p.1.headIsApp) = true := by
        rw [show (MathObject.mk o1 n1 nm1 v1 ln1 bv1 mt1 cs1).node = n1
          from rfl, hcapp]
        exact hfl.1
      obtain ⟨hoid, hnode, hname, hvalue, hln, hbv', hmt, hs1⟩ :=
        mkMO_fields _ _ _ _ _ _ _ _ _ _ hmk
      have hchild : t'.children = p.1 :=
        mkMO_children _ _ _ _ _ _ _ _ _ _ hcbv hflat' hmk
      have hbv1 : bv1 = false := by
        have h' := hnb.1
        simpa only [Bool.not_eq_true'] using h'
      refine ⟨?_, hbv', hnode⟩
      intro s0
      cases t' with
      | mk o' n' nm' v' ln' bv' mt' cs' =>
        simp only [MathObject.node] at hnode
        simp only [MathObject.name] at hname
        simp only [MathObject.value] at hvalue
        simp only [MathObject.isBoundVar] at hbv'
        simp only [MathObject.mathTypeF] at hmt
        simp only [MathObject.children] at hchild
        rw [hnode, hname, hvalue, hbv', hmt, hchild]
        exact mEq_rebuild o' o1 n1 nm1 v1 ln' ln1 bv1 mt1 cs1 p.1 s0
          hbv1 hcbv hclen hceq


/-- Allocator monotonicity of the children pass, given it for the
tree level at the same fuel. -/
theorem unfoldChildren_mono (pats : List DefinitionPattern) (fuel : Nat)
    (ihA : ∀ (t : MathObject) (s : St) (t' : MathObject) (s1 : St),
      unfoldImplicitDefinitionRecursively pats fuel t s =
        Option.some (t', s1) →
      s.nextOid ≤ t'.oid ∧ s1.nextOid = t'.oid + 1) :
    ∀ (cs : MOList) (s : St) (cs' : MOList) (s1 : St),
      unfoldChildrenWith
          (unfoldImplicitDefinitionRecursively pats fuel) cs s =
        Option.some (cs', s1) →
      s.nextOid ≤ s1.nextOid
  | .nil, s, cs', s1, h => by
    rw [unfoldChildrenWith_nil] at h
    simp only [Option.some.injEq, Prod.mk.injEq] at h
    obtain ⟨-, rfl⟩ := h
    exact Nat.le_refl _
  | .cons c ct, s, cs', s1, h => by
    rw [unfoldChildrenWith_cons, Option.bind_eq_some] at h
    obtain ⟨p, hc, hmap⟩ := h
    rw [Option.map_eq_some'] at hmap
    obtain ⟨q, hq, hpair⟩ := hmap
    simp only [Prod.mk.injEq] at hpair
    obtain ⟨-, hs1⟩ := hpair
    obtain ⟨h1, h2⟩ := ihA c s p.1 p.2 (by rw [Prod.mk.eta]; exact hc)
    have h3 : p.2.nextOid ≤ q.2.nextOid :=
      unfoldChildren_mono pats fuel ihA ct p.2 q.1 q.2
        (by rw [Prod.mk.eta]; exact hq)
    rw [← hs1]
    omega

/-- The rebuilt root of a successful unfolding is freshly allocated:
its object id is at least the allocator mark at call time, and the
returned allocator sits just above it. -/
theorem unfoldRec_fresh (pats : List DefinitionPattern) :
    ∀ (fuel : Nat) (t : MathObject) (s : St) (t' : MathObject) (s1 : St),
      unfoldImplicitDefinitionRecursively pats fuel t s =
        Option.some (t', s1) →
      s.nextOid ≤ t'.oid ∧ s1.nextOid = t'.oid + 1 := by
  intro fuel
  induction fuel with
  | zero =>
    intro t s t' s1 h
    rw [unfoldRec_zero] at h
    exact Option.noConfusion h
  | succ fuel ih =>
    intro t s t' s1 h
    rw [unfoldRec_succ] at h
    rw [Option.bind_eq_some] at h
    obtain ⟨p, hch, hmk⟩ := h
    have hmono : s.nextOid ≤ p.2.nextOid :=
      unfoldChildren_mono pats fuel ih _ s p.1 p.2
        (by rw [Prod.mk.eta]; exact hch)
    obtain ⟨hoid, -, -, -, -, -, -, hs1⟩ :=
      mkMO_fields _ _ _ _ _ _ _ _ _ _ hmk
    constructor
    · omega
    · rw [hs1, hoid]

/-- Claim C5 (amended): `unfold_implicit_definition_recursively` keeps
only the first successful top-level rewrite (definition order) — the
rebuilt root carries the first rewrite's node, name and value, and is
a plain (non-`BoundVar`) object; the root it returns is freshly
constructed (its id is at or above the allocator mark, so it is never
`t` itself when `t` predates the call); and when no definition matches
anywhere in `t`, `t` contains no bound variables, and every
application node of `t` is already uncurried (the invariant the
constructor establishes), the result is structurally equal to `t` (via
`equals`, with no state change).  Without the bound-variable
restriction structural equality fails: the rebuild demotes `BoundVar`
children to plain nodes. -/
theorem c5_unfold_recursively (pats : List DefinitionPattern) :
    (∀ (fuel : Nat) (t : MathObject) (s : St) (t' : MathObject)
        (s1 : St) (r : MathObject) (rs : List MathObject),
        unfoldImplicitDefinition pats t = r :: rs →
        unfoldImplicitDefinitionRecursively pats (fuel + 1) t s =
          Option.some (t', s1) →
        t'.node = r.node ∧ t'.name = r.name ∧ t'.value = r.value ∧
        t'.isBoundVar = false) ∧
    (∀ (fuel : Nat) (t : MathObject) (s : St) (t' : MathObject)
        (s1 : St),
        unfoldImplicitDefinitionRecursively pats fuel t s =
          Option.some (t', s1) →
        s.nextOid ≤ t'.oid ∧ (t.oid < s.nextOid → t'.oid ≠ t.oid)) ∧
    (∀ (fuel : Nat) (t : MathObject) (s : St) (t' : MathObject)
        (s1 : St),
        noMatchIn pats t = true → noBoundVarIn t = true →
        appFlat t = true →
        unfoldImplicitDefinitionRecursively pats fuel t s =
          Option.some (t', s1) →
        ∀ s0, mEq t' t s0 = Option.some (true, s0)) := by
  refine ⟨?_, ?_, ?_⟩
  · intro fuel t s t' s1 r rs hrw h
    rw [unfoldRec_succ] at h
    simp only [hrw, List.headD] at h
    rw [Option.bind_eq_some] at h
    obtain ⟨p, hch, hmk⟩ := h
    obtain ⟨-, hnode, hname, hvalue, -, hbv, -, -⟩ :=
      mkMO_fields _ _ _ _ _ _ _ _ _ _ hmk
    exact ⟨hnode, hname, hvalue, hbv⟩
  · intro fuel t s t' s1 h
    obtain ⟨h1, -⟩ := unfoldRec_fresh pats fuel t s t' s1 h
    exact ⟨h1, fun hlt => by omega⟩
  · intro fuel t s t' s1 hnm hnb hfl h
    exact (unfoldRec_noMatch pats fuel t s t' s1 hnm hnb hfl h).1

/-- Claim C5, counterexample: with no definitions loaded (so nothing
matches anywhere), unfolding the binder `∀ x : X, x ∈ …` rebuilds a
tree that is NOT structurally equal to the original — the rebuilt
`children[1]` is a plain `MathObject`, no longer a `BoundVar`, and
`equals` fails at that leaf. -/
theorem c5_counterexample :
    ((unfoldImplicitDefinitionRecursively [] 5 exQx st0).bind
        (fun p => (mEq p.1 exQx st0).map Prod.fst)) =
      Option.some false ∧
    noMatchIn [] exQx = true ∧ appFlat exQx = true :=
  ⟨by decide, by decide, by decide⟩

/-- A toy implicit-definition pattern: any node with kind `"AX"`
rewrites to the term `exC3n`. -/
def exPat : DefinitionPattern :=
  ⟨fun t => t.node == "AX", fun _ => exC3n⟩

/-- Example: a node the toy pattern matches. -/
def exAX : MathObject :=
  .mk 60 "AX" Option.none Option.none Option.none false .none .nil

/-- Claim C5, witness: at concrete inputs — the first-rewrite root
fields, the fresh root id, and the no-match structural equality. -/
theorem c5_witness :
    (∃ t' s1,
      unfoldImplicitDefinitionRecursively [exPat] 2 exAX st0 =
        Option.some (t', s1) ∧
      t'.node = exC3n.node ∧ t'.name = exC3n.name) ∧
    (∃ t' s1,
      unfoldImplicitDefinitionRecursively [] 3 exC3h st0 =
        Option.some (t', s1) ∧
      mEq t' exC3h st0 = Option.some (true, st0) ∧
      st0.nextOid ≤ t'.oid ∧ t'.oid ≠ exC3h.oid) := by
  constructor
  · cases hres : unfoldImplicitDefinitionRecursively [exPat] 2 exAX st0
      with
    | none =>
      have hs : (unfoldImplicitDefinitionRecursively [exPat] 2 exAX
          st0).isSome = true := by decide
      rw [hres] at hs
      exact Bool.noConfusion hs
    | some p =>
      obtain ⟨hnode, hname, -, -⟩ :=
        (c5_unfold_recursively [exPat]).1 1 exAX st0 p.1 p.2 exC3n []
          (by decide) (by rw [Prod.mk.eta]; exact hres)
      exact ⟨p.1, p.2, rfl, hnode, hname⟩
  · cases hres : unfoldImplicitDefinitionRecursively [] 3 exC3h st0 with
    | none =>
      have hs : (unfoldImplicitDefinitionRecursively [] 3 exC3h
          st0).isSome = true := by decide
      rw [hres] at hs
      exact Bool.noConfusion hs
    | some p =>
      obtain ⟨hfresh, hne⟩ :=
        (c5_unfold_recursively []).2.1 3 exC3h st0 p.1 p.2
          (by rw [Prod.mk.eta]; exact hres)
      refine ⟨p.1, p.2, rfl, ?_, hfresh, hne (by decide)⟩
      exact (c5_unfold_recursively []).2.2 3 exC3h st0 p.1 p.2
        (by decide) (by decide) (by decide)
        (by rw [Prod.mk.eta]; exact hres) st0


end DEAduction

namespace DEAduction

/-!
## Claim C6
-/

theorem withChildren_fields (a : MathObject) (cs : MOList) :
    (a.withChildren cs).oid = a.oid ∧
    (a.withChildren cs).name = a.name ∧
    (a.withChildren cs).leanName = a.leanName ∧
    (a.withChildren cs).isBoundVar = a.isBoundVar := by
  cases a
  exact ⟨rfl, rfl, rfl, rfl⟩

/-- `process_sequences_and_likes` step (1) mutates only the children
list of the object it returns. -/
theorem processSeqStep1_fields (m : MathObject) (s : St)
    (p : MathObject × St) (h : processSeqStep1 m s = Option.some p) :
    p.1.oid = m.oid ∧ p.1.name = m.name ∧ p.1.leanName = m.leanName ∧
    p.1.isBoundVar = m.isBoundVar := by
  unfold processSeqStep1 at h
  split at h
  · split at h
    · split at h
      · exact Option.noConfusion h
      · rw [Option.bind_eq_some] at h
        obtain ⟨q, -, hq⟩ := h
        simp only [Option.some.injEq] at hq
        rw [← hq]
        exact withChildren_fields m _
    · simp only [Option.some.injEq] at h
      rw [← h]
      exact ⟨rfl, rfl, rfl, rfl⟩
  · simp only [Option.some.injEq] at h
    rw [← h]
    exact ⟨rfl, rfl, rfl, rfl⟩

/-- `process_sequences_and_likes` preserves the object identity (and
the name fields) of the object it processes. -/
theorem processSeq_fields (m : MathObject) (s : St)
    (m' : MathObject) (s' : St)
    (h : processSeq m s = Option.some (m', s')) :
    m'.oid = m.oid ∧ m'.name = m.name ∧ m'.leanName = m.leanName ∧
    m'.isBoundVar = m.isBoundVar := by
  unfold processSeq at h
  rw [Option.bind_eq_some] at h
  obtain ⟨p, hp, hrest⟩ := h
  obtain ⟨h1, h2, h3, h4⟩ := processSeqStep1_fields m s p hp
  split at hrest
  · rw [Option.bind_eq_some] at hrest
    obtain ⟨q, -, hq⟩ := hrest
    simp only [Option.some.injEq, Prod.mk.injEq] at hq
    obtain ⟨hm', -⟩ := hq
    rw [← hm']
    obtain ⟨g1, g2, g3, g4⟩ := withChildren_fields p.1 q.1
    exact ⟨g1.trans h1, g2.trans h2, g3.trans h3, g4.trans h4⟩
  · simp only [Option.some.injEq] at hrest
    have hm' : p.1 = m' := by rw [hrest]
    rw [← hm']
    exact ⟨h1, h2, h3, h4⟩

theorem lookupVar_storeVar_self (l : List (String × MathObject))
    (k : String) (v : MathObject) :
    lookupVar (storeVar l k v) k = Option.some v := by
  unfold lookupVar storeVar
  simp [List.find?]

/-- Unfolding of `fromInfoFinish` through `Option.bind`. -/
theorem fromInfoFinish_some (m : MathObject) (s1 : St) (c : CachedAt)
    (m1 : MathObject) (s2 : St)
    (h : fromInfoFinish m s1 c = Option.some (m1, s2)) :
    ∃ p, processSeq m
        { s1 with numberSets :=
            (addNumbersSet s1.numberSets m.displayName) } =
        Option.some p ∧
      m1 = p.1 ∧ s2 = storeBack c p.1 p.2 := by
  unfold fromInfoFinish at h
  rw [Option.bind_eq_some] at h
  obtain ⟨p, hp, hps⟩ := h
  simp only [Option.some.injEq, Prod.mk.injEq] at hps
  obtain ⟨hm1, hs2⟩ := hps
  exact ⟨p, hp, hm1.symm, hs2.symm⟩

/-- A successful non-`CONSTANT`, identifier-carrying call caches the
object it returns in `Variables` under the identifier. -/
theorem fromInfo_caches (info : Info) (ch : MOList) (s : St)
    (m1 : MathObject) (s1 : St) (id : String)
    (hn : info.node_name ≠ "CONSTANT")
    (hid : info.identifier = Option.some id)
    (h : fromInfoAndChildren info ch s = Option.some (m1, s1)) :
    lookupVar s1.Variables id = Option.some m1 := by
  unfold fromInfoAndChildren at h
  rw [Option.bind_eq_some] at h
  obtain ⟨b, hb, hfin⟩ := h
  unfold fromInfoBuild at hb
  rw [if_neg (by simpa using hn), hid] at hb
  dsimp only at hb
  have hfin' : ∀ (mb : MathObject) (sb : St),
      b = (mb, sb, CachedAt.variablesKey id) →
      lookupVar s1.Variables id = Option.some m1 := by
    intro mb sb hbval
    rw [hbval] at hfin
    obtain ⟨p, -, hm1, hs1⟩ := fromInfoFinish_some _ _ _ _ _ hfin
    rw [hs1]
    unfold storeBack
    rw [show ({ p.2 with Variables :=
      (storeVar p.2.Variables id p.1) } : St).Variables =
      storeVar p.2.Variables id p.1 from rfl]
    rw [lookupVar_storeVar_self, hm1]
  cases hlk : lookupVar s.Variables id with
  | some m0 =>
    rw [hlk] at hb
    dsimp only at hb
    injection hb with hb1
    exact hfin' m0 s hb1.symm
  | none =>
    rw [hlk] at hb
    dsimp only at hb
    rw [Option.bind_eq_some] at hb
    obtain ⟨p0, -, hb2⟩ := hb
    injection hb2 with hb1
    exact hfin' p0.1 _ hb1.symm

/-- A cache hit returns (the processed alias of) the cached object:
same object identity. -/
theorem fromInfo_hit (info : Info) (ch : MOList) (s : St)
    (m m2 : MathObject) (s2 : St) (id : String)
    (hn : info.node_name ≠ "CONSTANT")
    (hid : info.identifier = Option.some id)
    (hlook : lookupVar s.Variables id = Option.some m)
    (h : fromInfoAndChildren info ch s = Option.some (m2, s2)) :
    m2.oid = m.oid := by
  unfold fromInfoAndChildren at h
  rw [Option.bind_eq_some] at h
  obtain ⟨b, hb, hfin⟩ := h
  unfold fromInfoBuild at hb
  rw [if_neg (by simpa using hn), hid] at hb
  dsimp only at hb
  rw [hlook] at hb
  dsimp only at hb
  injection hb with hb1
  rw [← hb1] at hfin
  obtain ⟨p, hp, hm2, -⟩ := fromInfoFinish_some _ _ _ _ _ hfin
  obtain ⟨hoid, -, -, -⟩ :=
    processSeq_fields m _ p.1 p.2 (by rw [Prod.mk.eta]; exact hp)
  rw [hm2, hoid]



theorem strEndsWith_marker (nm : String) :
    strEndsWith (nm ++ ".BoundVar") ".BoundVar" = true := by
  unfold strEndsWith
  rw [String.data_append]
  unfold List.isSuffixOf
  simp [List.isPrefixOf_iff_prefix]

theorem strDropRight_marker (nm : String) :
    strDropRight (nm ++ ".BoundVar") ".BoundVar".length = nm := by
  unfold strDropRight
  rw [String.data_append]
  have h9 : ".BoundVar".data.length = 9 := rfl
  have h9' : ".BoundVar".length = 9 := rfl
  have hlen : (nm.data ++ ".BoundVar".data).length - ".BoundVar".length
      = nm.data.length := by
    rw [List.length_append, h9, h9']
    omega
  rw [hlen, List.take_left]
  cases nm
  rfl

theorem append_marker_ne_empty (nm : String) :
    ((nm ++ ".BoundVar") != "") = true := by
  have h : nm ++ ".BoundVar" ≠ "" := by
    intro hc
    have : (nm ++ ".BoundVar").data = "".data := by rw [hc]
    rw [String.data_append] at this
    have h9 : ("" : String).data = [] := rfl
    rw [h9] at this
    exact absurd (List.append_eq_nil.mp this).2 (by decide)
  simpa [bne] using h

/-- The `'.BoundVar'` suffix detection on a marked name strips the
marker. -/
theorem strippedBoundVarName_marker (nm : String) :
    strippedBoundVarName (Option.some (nm ++ ".BoundVar")) =
      Option.some nm := by
  unfold strippedBoundVarName
  dsimp only
  rw [if_pos]
  · rw [strDropRight_marker]
  · rw [append_marker_ne_empty, strEndsWith_marker]
    rfl

theorem withName_withLeanName_fields (a : MathObject)
    (nm ln : Option String) :
    ((a.withName nm).withLeanName ln).oid = a.oid ∧
    ((a.withName nm).withLeanName ln).isBoundVar = a.isBoundVar ∧
    ((a.withName nm).withLeanName ln).leanName = ln := by
  cases a
  exact ⟨rfl, rfl, rfl⟩

/-- The renaming tail of `BoundVar.__init__` keeps the object identity
and class, and records the normalised previous name as `lean_name`. -/
theorem bvFinish_fields (m : MathObject) :
    (bvFinish m).oid = m.oid ∧ (bvFinish m).isBoundVar = m.isBoundVar ∧
    (bvFinish m).leanName =
      Option.some (bvLeanName (pyGetName m)) := by
  unfold bvFinish
  split
  · cases m
    exact ⟨rfl, rfl, rfl⟩
  · cases m
    exact ⟨rfl, rfl, rfl⟩

/-- Field characterization of a successful `BoundVar` construction
from a stripped name that is not an unnamed sentinel. -/
theorem mkBoundVar_fields (node : String) (nm : String)
    (v ln : Option String) (mt : OptMO) (ch : MOList) (s : St)
    (m : MathObject) (s' : St) (h1 : nm ≠ "NO NAME")
    (h2 : nm ≠ "*no_name*")
    (h : mkBoundVar node (Option.some nm) v ln mt ch s =
      Option.some (m, s')) :
    m.isBoundVar = true ∧ m.leanName = Option.some nm := by
  unfold mkBoundVar at h
  rw [Option.bind_eq_some] at h
  obtain ⟨p, hmk, hfin⟩ := h
  simp only [Option.some.injEq, Prod.mk.injEq] at hfin
  obtain ⟨hm, -⟩ := hfin
  obtain ⟨-, -, hname, -, -, hbv, -, -⟩ :=
    mkMO_fields _ _ _ _ _ _ _ _ _ _ (by rw [Prod.mk.eta]; exact hmk)
  obtain ⟨-, hfbv, hfln⟩ := bvFinish_fields p.1
  have hpg : pyGetName p.1 = nm := by
    unfold pyGetName
    rw [hname]
  have hbl : bvLeanName nm = nm := by
    unfold bvLeanName
    rw [if_neg]
    simp [h1, h2]
  constructor
  · rw [← hm, hfbv, hbv]
  · rw [← hm, hfln, hpg, hbl]

/-- Claim C6 (amended): unless the node kind is `'CONSTANT'` (those
are deduplicated through the `constants` table by display name, and a
`CONSTANT` record with a falsy name is rebuilt on every call), two
calls to `from_info_and_children` whose info maps carry the same
`'identifier'` value return the identical cached object
(identity-equal, same object id); and when the identifier is new and
the name ends with `'.BoundVar'`, the suffix is stripped and a
`BoundVar` is constructed (with the stripped name recorded as its Lean
name) and cached under the identifier instead of a plain
`MathObject`. -/
theorem c6_identifier_dedup :
    (∀ (info1 info2 : Info) (ch1 ch2 : MOList) (s s1 s2 : St)
        (m1 m2 : MathObject) (id : String),
        info1.node_name ≠ "CONSTANT" → info2.node_name ≠ "CONSTANT" →
        info1.identifier = Option.some id →
        info2.identifier = Option.some id →
        fromInfoAndChildren info1 ch1 s = Option.some (m1, s1) →
        fromInfoAndChildren info2 ch2 s1 = Option.some (m2, s2) →
        m2.oid = m1.oid) ∧
    (∀ (info : Info) (ch : MOList) (s : St) (m : MathObject) (s' : St)
        (id nm : String),
        info.node_name ≠ "CONSTANT" →
        info.identifier = Option.some id →
        lookupVar s.Variables id = Option.none →
        info.name = Option.some (nm ++ ".BoundVar") →
        nm ≠ "NO NAME" → nm ≠ "*no_name*" →
        fromInfoAndChildren info ch s = Option.some (m, s') →
        m.isBoundVar = true ∧ m.leanName = Option.some nm ∧
        lookupVar s'.Variables id = Option.some m) := by
  constructor
  · intro info1 info2 ch1 ch2 s s1 s2 m1 m2 id hn1 hn2 hid1 hid2 h1 h2
    have hcached := fromInfo_caches info1 ch1 s m1 s1 id hn1 hid1 h1
    exact fromInfo_hit info2 ch2 s1 m1 m2 s2 id hn2 hid2 hcached h2
  · intro info ch s m s' id nm hn hid hlook hname hnm1 hnm2 h
    have hcached := fromInfo_caches info ch s m s' id hn hid h
    refine ⟨?_, ?_, hcached⟩ <;>
    · unfold fromInfoAndChildren at h
      rw [Option.bind_eq_some] at h
      obtain ⟨b, hb, hfin⟩ := h
      unfold fromInfoBuild at hb
      rw [if_neg (by simpa using hn), hid] at hb
      dsimp only at hb
      rw [hlook] at hb
      dsimp only at hb
      rw [Option.bind_eq_some] at hb
      obtain ⟨p0, hmk0, hb2⟩ := hb
      rw [hname, strippedBoundVarName_marker] at hmk0
      dsimp only at hmk0
      obtain ⟨hbv0, hln0⟩ :=
        mkBoundVar_fields _ _ _ _ _ _ _ _ _ hnm1 hnm2
          (by rw [Prod.mk.eta]; exact hmk0)
      injection hb2 with hb1
      rw [← hb1] at hfin
      obtain ⟨p, hp, hm, -⟩ := fromInfoFinish_some _ _ _ _ _ hfin
      obtain ⟨-, -, hln, hbv⟩ :=
        processSeq_fields p0.1 _ p.1 p.2 (by rw [Prod.mk.eta]; exact hp)
      first
      | (rw [hm, hbv, hbv0])
      | (rw [hm, hln, hln0])


def exInfoC6 : Info :=
  ⟨"CONSTANT", Option.none, Option.none, Option.none,
    Option.some "i42", OptMO.none⟩

def exInfoV6 : Info :=
  ⟨"LOCAL_CONSTANT", Option.some "x", Option.none, Option.none,
    Option.some "i7", OptMO.none⟩

def exInfoB6 : Info :=
  ⟨"LOCAL_CONSTANT", Option.some ("u" ++ ".BoundVar"), Option.none,
    Option.none, Option.some "i9", OptMO.none⟩

/-- Counterexample to the claim as stated: two calls to
`from_info_and_children` with info maps both carrying identifier
`'i42'` but node `'CONSTANT'` (and no name) allocate two fresh
objects, ids 100 and 101, instead of returning the identical cached
object. -/
theorem c6_counterexample :
    (Option.bind (fromInfoAndChildren exInfoC6 MOList.nil st0)
      (fun p => Option.map (fun q => (p.1.oid, q.1.oid))
        (fromInfoAndChildren exInfoC6 MOList.nil p.2))) =
      Option.some (100, 101) := by decide

theorem c6_witness :
    (Option.bind (fromInfoAndChildren exInfoV6 MOList.nil st0)
      (fun p => Option.map (fun q => decide (q.1.oid = p.1.oid))
        (fromInfoAndChildren exInfoV6 MOList.nil p.2))) =
      Option.some true ∧
    (Option.map
      (fun r => (r.1.isBoundVar,
        decide (r.1.leanName = Option.some "u"),
        decide (lookupVar r.2.Variables "i9" = Option.some r.1)))
      (fromInfoAndChildren exInfoB6 MOList.nil st0)) =
      Option.some (true, true, true) := by
  constructor
  · have h1 : (fromInfoAndChildren exInfoV6 MOList.nil st0).isSome
        = true := by decide
    have h2 : (Option.bind (fromInfoAndChildren exInfoV6 MOList.nil st0)
        (fun p => fromInfoAndChildren exInfoV6 MOList.nil p.2)).isSome
        = true := by decide
    cases hres1 : fromInfoAndChildren exInfoV6 MOList.nil st0 with
    | none => rw [hres1] at h1; exact Bool.noConfusion h1
    | some p =>
      rw [hres1] at h2
      dsimp only [Option.bind] at h2
      dsimp only [Option.bind]
      cases hres2 : fromInfoAndChildren exInfoV6 MOList.nil p.2 with
      | none => rw [hres2] at h2; exact Bool.noConfusion h2
      | some q =>
        have hoid : q.1.oid = p.1.oid :=
          c6_identifier_dedup.1 exInfoV6 exInfoV6 MOList.nil MOList.nil
            st0 p.2 q.2 p.1 q.1 "i7" (by decide) (by decide) rfl rfl
            hres1 hres2
        dsimp only [Option.map]
        rw [hoid]
        simp
  · have hB : (fromInfoAndChildren exInfoB6 MOList.nil st0).isSome
        = true := by decide
    cases hresB : fromInfoAndChildren exInfoB6 MOList.nil st0 with
    | none => rw [hresB] at hB; exact Bool.noConfusion hB
    | some r =>
      obtain ⟨hbv, hln, hlook⟩ :=
        c6_identifier_dedup.2 exInfoB6 MOList.nil st0 r.1 r.2 "i9" "u"
          (by decide) rfl (by decide) rfl (by decide) (by decide) hresB
      dsimp only [Option.map]
      rw [hbv, hln, hlook]
      simp

end DEAduction
